import Mathlib

/-!
Verification of the action aggregation and batch-dispatch engine of the
gmail-automata repository against its specification.

The engine lives in src/ThreadData.ts.  It exists at two granularities:
`ThreadData.applyAllActions` (thread granularity) and
`MessageData.applyAllActions` (message granularity).  Both walk the dataset
once, building per-dimension group mappings, issuing the per-record category
reassignment calls during that walk, and then issue the grouped mutation
calls followed by the bookkeeping calls.

The embedding below models each mailbox service request as a `Call` value and
each dispatcher as a pure function from the dataset (plus session data) to the
list of calls it issues, in issue order.  Record handles are natural numbers
(thread ids) and `RawMessage` values (message id, parent thread id, date).
-/

namespace GmailAutomata

/-- Enum of move actions (InboxActionType, imported from Action.ts; the
constructor names are the ones used in src/ThreadData.ts). -/
inductive InboxActionType where
  | DEFAULT
  | INBOX
  | ARCHIVE
  | TRASH
  | MSG_INBOX
  | MSG_ARCHIVE
  | MSG_TRASH
deriving DecidableEq

/-- Enum of importance actions (BooleanActionType from Action.ts). -/
inductive BooleanActionType where
  | DEFAULT
  | ENABLE
  | DISABLE
deriving DecidableEq

/-- Enum of read actions (ReadActionType from Action.ts). -/
inductive ReadActionType where
  | DEFAULT
  | THREAD_READ
  | THREAD_UNREAD
  | MSG_READ
  | MSG_UNREAD
deriving DecidableEq

/-- Mutation intent of one record (class Action from Action.ts, with exactly
the fields read by src/ThreadData.ts).  The category name set is modelled as a
list in insertion order. -/
structure Action where
  label_names : List String
  label_names_to_remove : List String
  inbox_category_names : List String
  move_to : InboxActionType
  important : BooleanActionType
  read : ReadActionType
deriving DecidableEq

/-- Modelled from the spec: the constant Action.INBOX_CATEGORIES is defined in
Action.ts, which is not under src/ (src/ThreadData.ts only uses it); the spec
fixes the category enumeration as the five mutually exclusive values PRIMARY,
SOCIAL, PROMOTIONS, UPDATES, FORUMS. -/
def Action.INBOX_CATEGORIES : List String :=
  ["PRIMARY", "SOCIAL", "PROMOTIONS", "UPDATES", "FORUMS"]

/-- Session configuration read by the engine (SessionData.config). -/
structure Config where
  processed_label : String
  unprocessed_label : String
deriving DecidableEq

/-- The part of SessionData read by src/ThreadData.ts: the configuration and
the cutoff timestamp oldest_to_process. -/
structure SessionData where
  config : Config
  oldest_to_process : Int
deriving DecidableEq

/-- A raw Gmail message handle, with the accessors src/ThreadData.ts uses on
it: getId, getThread and getDate. -/
structure RawMessage where
  id : Nat
  thread : Nat
  date : Int
deriving DecidableEq

/-- One mutating request against the mailbox service, in the vocabulary of
src/ThreadData.ts: GmailLabel.addToThreads / removeFromThreads (obtained via
session_data.getOrCreateLabel, identified here by the label name),
Gmail.Users.Threads.modify and Gmail.Users.Messages.modify, and the GmailApp
bulk operations. -/
inductive Call where
  | addLabelThreads (label : String) (threads : List Nat)
  | removeLabelThreads (label : String) (threads : List Nat)
  | modifyThread (thread : Nat) (addLabelIds removeLabelIds : List String)
  | modifyMessage (message : Nat) (addLabelIds removeLabelIds : List String)
  | moveThreadsToInbox (threads : List Nat)
  | moveThreadsToArchive (threads : List Nat)
  | moveThreadsToTrash (threads : List Nat)
  | moveMessagesToTrash (messages : List Nat)
  | markThreadsImportant (threads : List Nat)
  | markThreadsUnimportant (threads : List Nat)
  | markThreadsRead (threads : List Nat)
  | markThreadsUnread (threads : List Nat)
  | markMessagesRead (messages : List Nat)
  | markMessagesUnread (messages : List Nat)
deriving DecidableEq

/-- Insertion into the label action maps: JavaScript objects keyed by strings,
whose keys keep first-insertion order and whose value arrays are appended to,
modelled as association lists. -/
def updateLabelMap {α : Type} (m : List (String × List α)) (k : String) (v : α) :
    List (String × List α) :=
  match m with
  | [] => [(k, [v])]
  | p :: rest => if p.1 = k then (p.1, p.2 ++ [v]) :: rest else p :: updateLabelMap rest k v

/-- One pass that folds a label projection of each record of the dataset into
a label action map, mirroring the forEach loops over action.label_names and
action.label_names_to_remove. -/
def labelMapFold {ε α : Type} (act : ε → Action) (val : ε → α)
    (proj : Action → List String) (m : List (String × List α)) :
    List ε → List (String × List α)
  | [] => m
  | e :: rest =>
      labelMapFold act val proj
        ((proj (act e)).foldl (fun acc l => updateLabelMap acc l (val e)) m) rest

/-- A thread together with its action, as read by ThreadData.applyAllActions
(the thread handle thread_data.raw and the action thread_data.thread_action). -/
structure ThreadData where
  raw : Nat
  thread_action : Action
deriving DecidableEq

/-- One step of the aggregation loop of ThreadData.applyAllActions: update the
label add and remove maps and, when the category set is non-empty, issue the
Gmail.Users.Threads.modify call for this record right away. -/
def ThreadData.aggStep
    (acc : List (String × List Nat) × List (String × List Nat) × List Call)
    (td : ThreadData) :
    List (String × List Nat) × List (String × List Nat) × List Call :=
  (td.thread_action.label_names.foldl (fun m l => updateLabelMap m l td.raw) acc.1,
   td.thread_action.label_names_to_remove.foldl
     (fun m l => updateLabelMap m l td.raw) acc.2.1,
   if 0 < td.thread_action.inbox_category_names.length then
     acc.2.2 ++ [Call.modifyThread td.raw td.thread_action.inbox_category_names
       (Action.INBOX_CATEGORIES.filter
         (fun c => !(td.thread_action.inbox_category_names.contains c)))]
   else acc.2.2)

/-- The aggregation loop of ThreadData.applyAllActions (all_thread_data.forEach). -/
def ThreadData.aggregate
    (acc : List (String × List Nat) × List (String × List Nat) × List Call) :
    List ThreadData → List (String × List Nat) × List (String × List Nat) × List Call
  | [] => acc
  | td :: rest => ThreadData.aggregate (ThreadData.aggStep acc td) rest

/-- The group of threads pushed under one key of the moving_action_map: the
map is pre-seeded with one empty entry per enum value and the loop appends
each thread to the entry of its action's move_to, so the entry for t holds
the threads whose action carries t, in dataset order. -/
def ThreadData.movingGroup (data : List ThreadData) (t : InboxActionType) : List Nat :=
  (data.filter (fun td => td.thread_action.move_to == t)).map (fun td => td.raw)

/-- The moving_action_map of ThreadData.applyAllActions, entries in its
insertion order. -/
def ThreadData.movingActionMap (data : List ThreadData) :
    List (InboxActionType × List Nat) :=
  [(InboxActionType.DEFAULT, ThreadData.movingGroup data InboxActionType.DEFAULT),
   (InboxActionType.INBOX, ThreadData.movingGroup data InboxActionType.INBOX),
   (InboxActionType.ARCHIVE, ThreadData.movingGroup data InboxActionType.ARCHIVE),
   (InboxActionType.TRASH, ThreadData.movingGroup data InboxActionType.TRASH),
   (InboxActionType.MSG_INBOX, ThreadData.movingGroup data InboxActionType.MSG_INBOX),
   (InboxActionType.MSG_ARCHIVE, ThreadData.movingGroup data InboxActionType.MSG_ARCHIVE),
   (InboxActionType.MSG_TRASH, ThreadData.movingGroup data InboxActionType.MSG_TRASH)]

/-- The switch of ThreadData.applyAllActions on moving_action_map entries: it
has cases only for INBOX, ARCHIVE and TRASH, so every other enum value
(DEFAULT and the three MSG variants) issues no call at this granularity. -/
def ThreadData.moveDispatch (t : InboxActionType) (threads : List Nat) : List Call :=
  match t with
  | InboxActionType.INBOX => [Call.moveThreadsToInbox threads]
  | InboxActionType.ARCHIVE => [Call.moveThreadsToArchive threads]
  | InboxActionType.TRASH => [Call.moveThreadsToTrash threads]
  | _ => []

/-- The group of threads pushed under one key of the important_action_map. -/
def ThreadData.importantGroup (data : List ThreadData) (t : BooleanActionType) : List Nat :=
  (data.filter (fun td => td.thread_action.important == t)).map (fun td => td.raw)

/-- The important_action_map of ThreadData.applyAllActions. -/
def ThreadData.importantActionMap (data : List ThreadData) :
    List (BooleanActionType × List Nat) :=
  [(BooleanActionType.DEFAULT, ThreadData.importantGroup data BooleanActionType.DEFAULT),
   (BooleanActionType.ENABLE, ThreadData.importantGroup data BooleanActionType.ENABLE),
   (BooleanActionType.DISABLE, ThreadData.importantGroup data BooleanActionType.DISABLE)]

/-- The switch on important_action_map entries: cases only for ENABLE and
DISABLE. -/
def ThreadData.importantDispatch (t : BooleanActionType) (threads : List Nat) : List Call :=
  match t with
  | BooleanActionType.ENABLE => [Call.markThreadsImportant threads]
  | BooleanActionType.DISABLE => [Call.markThreadsUnimportant threads]
  | _ => []

/-- The group of threads pushed under one key of the read_action_map. -/
def ThreadData.readGroup (data : List ThreadData) (t : ReadActionType) : List Nat :=
  (data.filter (fun td => td.thread_action.read == t)).map (fun td => td.raw)

/-- The read_action_map of ThreadData.applyAllActions. -/
def ThreadData.readActionMap (data : List ThreadData) :
    List (ReadActionType × List Nat) :=
  [(ReadActionType.DEFAULT, ThreadData.readGroup data ReadActionType.DEFAULT),
   (ReadActionType.THREAD_READ, ThreadData.readGroup data ReadActionType.THREAD_READ),
   (ReadActionType.THREAD_UNREAD, ThreadData.readGroup data ReadActionType.THREAD_UNREAD),
   (ReadActionType.MSG_READ, ThreadData.readGroup data ReadActionType.MSG_READ),
   (ReadActionType.MSG_UNREAD, ThreadData.readGroup data ReadActionType.MSG_UNREAD)]

/-- The switch on read_action_map entries at thread granularity: cases only
for THREAD_READ and THREAD_UNREAD (no MSG_READ or MSG_UNREAD case). -/
def ThreadData.readDispatch (t : ReadActionType) (threads : List Nat) : List Call :=
  match t with
  | ReadActionType.THREAD_READ => [Call.markThreadsRead threads]
  | ReadActionType.THREAD_UNREAD => [Call.markThreadsUnread threads]
  | _ => []

/-- The final block of ThreadData.applyAllActions: add the processed label to
all threads when configured non-empty, then unconditionally remove the
unprocessed label from all threads. -/
def ThreadData.bookkeepingCalls (session_data : SessionData) (data : List ThreadData) :
    List Call :=
  (if 0 < session_data.config.processed_label.length then
     [Call.addLabelThreads session_data.config.processed_label
       (data.map (fun td => td.raw))]
   else []) ++
  [Call.removeLabelThreads session_data.config.unprocessed_label
    (data.map (fun td => td.raw))]

/-- All calls of ThreadData.applyAllActions before the bookkeeping block: the
category modify calls issued during the aggregation loop, then the batched
label add calls, label remove calls, move calls, importance calls and read
calls. -/
def ThreadData.mutationCalls (data : List ThreadData) : List Call :=
  let agg := ThreadData.aggregate ([], [], []) data
  agg.2.2
  ++ agg.1.map (fun p => Call.addLabelThreads p.1 p.2)
  ++ agg.2.1.map (fun p => Call.removeLabelThreads p.1 p.2)
  ++ (ThreadData.movingActionMap data).foldl
       (fun acc p => acc ++ ThreadData.moveDispatch p.1 p.2) []
  ++ (ThreadData.importantActionMap data).foldl
       (fun acc p => acc ++ ThreadData.importantDispatch p.1 p.2) []
  ++ (ThreadData.readActionMap data).foldl
       (fun acc p => acc ++ ThreadData.readDispatch p.1 p.2) []

/-- ThreadData.applyAllActions as the list of mailbox service calls it issues,
in issue order. -/
def ThreadData.applyAllActions (session_data : SessionData) (data : List ThreadData) :
    List Call :=
  ThreadData.mutationCalls data ++ ThreadData.bookkeepingCalls session_data data

/-- A message together with its action, as read by MessageData.applyAllActions
(message_data.raw and message_data.message_action). -/
structure MessageData where
  raw : RawMessage
  message_action : Action
deriving DecidableEq

/-- One step of the aggregation loop of MessageData.applyAllActions: the label
maps collect the raw message handles, and a non-empty category set issues a
Gmail.Users.Messages.modify call for this message right away. -/
def MessageData.aggStep
    (acc : List (String × List RawMessage) × List (String × List RawMessage) × List Call)
    (md : MessageData) :
    List (String × List RawMessage) × List (String × List RawMessage) × List Call :=
  (md.message_action.label_names.foldl (fun m l => updateLabelMap m l md.raw) acc.1,
   md.message_action.label_names_to_remove.foldl
     (fun m l => updateLabelMap m l md.raw) acc.2.1,
   if 0 < md.message_action.inbox_category_names.length then
     acc.2.2 ++ [Call.modifyMessage md.raw.id md.message_action.inbox_category_names
       (Action.INBOX_CATEGORIES.filter
         (fun c => !(md.message_action.inbox_category_names.contains c)))]
   else acc.2.2)

/-- The aggregation loop of MessageData.applyAllActions. -/
def MessageData.aggregate
    (acc : List (String × List RawMessage) × List (String × List RawMessage) × List Call) :
    List MessageData →
      List (String × List RawMessage) × List (String × List RawMessage) × List Call
  | [] => acc
  | md :: rest => MessageData.aggregate (MessageData.aggStep acc md) rest

/-- The group of raw messages pushed under one key of the moving_action_map of
MessageData.applyAllActions. -/
def MessageData.movingGroup (data : List MessageData) (t : InboxActionType) :
    List RawMessage :=
  (data.filter (fun md => md.message_action.move_to == t)).map (fun md => md.raw)

/-- The moving_action_map of MessageData.applyAllActions, entries in its
insertion order. -/
def MessageData.movingActionMap (data : List MessageData) :
    List (InboxActionType × List RawMessage) :=
  [(InboxActionType.DEFAULT, MessageData.movingGroup data InboxActionType.DEFAULT),
   (InboxActionType.INBOX, MessageData.movingGroup data InboxActionType.INBOX),
   (InboxActionType.ARCHIVE, MessageData.movingGroup data InboxActionType.ARCHIVE),
   (InboxActionType.TRASH, MessageData.movingGroup data InboxActionType.TRASH),
   (InboxActionType.MSG_INBOX, MessageData.movingGroup data InboxActionType.MSG_INBOX),
   (InboxActionType.MSG_ARCHIVE, MessageData.movingGroup data InboxActionType.MSG_ARCHIVE),
   (InboxActionType.MSG_TRASH, MessageData.movingGroup data InboxActionType.MSG_TRASH)]

/-- The switch of MessageData.applyAllActions on moving_action_map entries:
INBOX, ARCHIVE and TRASH move the parent threads in bulk; MSG_INBOX and
MSG_ARCHIVE issue one Gmail.Users.Messages.modify call per message in the
group; MSG_TRASH issues one bulk GmailApp.moveMessagesToTrash call; DEFAULT
has no case. -/
def MessageData.moveDispatch (t : InboxActionType) (messages : List RawMessage) :
    List Call :=
  match t with
  | InboxActionType.INBOX =>
      [Call.moveThreadsToInbox (messages.map (fun m => m.thread))]
  | InboxActionType.ARCHIVE =>
      [Call.moveThreadsToArchive (messages.map (fun m => m.thread))]
  | InboxActionType.TRASH =>
      [Call.moveThreadsToTrash (messages.map (fun m => m.thread))]
  | InboxActionType.MSG_INBOX =>
      messages.map (fun m => Call.modifyMessage m.id ["INBOX"] [])
  | InboxActionType.MSG_ARCHIVE =>
      messages.map (fun m => Call.modifyMessage m.id [] ["INBOX"])
  | InboxActionType.MSG_TRASH =>
      [Call.moveMessagesToTrash (messages.map (fun m => m.id))]
  | InboxActionType.DEFAULT => []

/-- The group of raw messages pushed under one key of the important_action_map
of MessageData.applyAllActions. -/
def MessageData.importantGroup (data : List MessageData) (t : BooleanActionType) :
    List RawMessage :=
  (data.filter (fun md => md.message_action.important == t)).map (fun md => md.raw)

/-- The important_action_map of MessageData.applyAllActions. -/
def MessageData.importantActionMap (data : List MessageData) :
    List (BooleanActionType × List RawMessage) :=
  [(BooleanActionType.DEFAULT, MessageData.importantGroup data BooleanActionType.DEFAULT),
   (BooleanActionType.ENABLE, MessageData.importantGroup data BooleanActionType.ENABLE),
   (BooleanActionType.DISABLE, MessageData.importantGroup data BooleanActionType.DISABLE)]

/-- The switch on important_action_map entries at message granularity: both
non-default cases mark the parent threads in bulk. -/
def MessageData.importantDispatch (t : BooleanActionType) (messages : List RawMessage) :
    List Call :=
  match t with
  | BooleanActionType.ENABLE =>
      [Call.markThreadsImportant (messages.map (fun m => m.thread))]
  | BooleanActionType.DISABLE =>
      [Call.markThreadsUnimportant (messages.map (fun m => m.thread))]
  | BooleanActionType.DEFAULT => []

/-- The group of raw messages pushed under one key of the read_action_map of
MessageData.applyAllActions. -/
def MessageData.readGroup (data : List MessageData) (t : ReadActionType) :
    List RawMessage :=
  (data.filter (fun md => md.message_action.read == t)).map (fun md => md.raw)

/-- The read_action_map of MessageData.applyAllActions. -/
def MessageData.readActionMap (data : List MessageData) :
    List (ReadActionType × List RawMessage) :=
  [(ReadActionType.DEFAULT, MessageData.readGroup data ReadActionType.DEFAULT),
   (ReadActionType.THREAD_READ, MessageData.readGroup data ReadActionType.THREAD_READ),
   (ReadActionType.THREAD_UNREAD, MessageData.readGroup data ReadActionType.THREAD_UNREAD),
   (ReadActionType.MSG_READ, MessageData.readGroup data ReadActionType.MSG_READ),
   (ReadActionType.MSG_UNREAD, MessageData.readGroup data ReadActionType.MSG_UNREAD)]

/-- The switch on read_action_map entries at message granularity: the thread
variants mark the parent threads in bulk, the MSG variants mark the messages
in bulk; DEFAULT has no case. -/
def MessageData.readDispatch (t : ReadActionType) (messages : List RawMessage) :
    List Call :=
  match t with
  | ReadActionType.THREAD_READ =>
      [Call.markThreadsRead (messages.map (fun m => m.thread))]
  | ReadActionType.THREAD_UNREAD =>
      [Call.markThreadsUnread (messages.map (fun m => m.thread))]
  | ReadActionType.MSG_READ =>
      [Call.markMessagesRead (messages.map (fun m => m.id))]
  | ReadActionType.MSG_UNREAD =>
      [Call.markMessagesUnread (messages.map (fun m => m.id))]
  | ReadActionType.DEFAULT => []

/-- The final block of MessageData.applyAllActions: the parent threads of all
messages of the dataset get the processed label added (when configured
non-empty) and the unprocessed label removed. -/
def MessageData.bookkeepingCalls (session_data : SessionData) (data : List MessageData) :
    List Call :=
  (if 0 < session_data.config.processed_label.length then
     [Call.addLabelThreads session_data.config.processed_label
       (data.map (fun md => md.raw.thread))]
   else []) ++
  [Call.removeLabelThreads session_data.config.unprocessed_label
    (data.map (fun md => md.raw.thread))]

/-- All calls of MessageData.applyAllActions before the bookkeeping block; the
label calls address the parent threads of the grouped messages
(messages.map (message) => message.getThread()). -/
def MessageData.mutationCalls (data : List MessageData) : List Call :=
  let agg := MessageData.aggregate ([], [], []) data
  agg.2.2
  ++ agg.1.map (fun p => Call.addLabelThreads p.1 (p.2.map (fun m => m.thread)))
  ++ agg.2.1.map (fun p => Call.removeLabelThreads p.1 (p.2.map (fun m => m.thread)))
  ++ (MessageData.movingActionMap data).foldl
       (fun acc p => acc ++ MessageData.moveDispatch p.1 p.2) []
  ++ (MessageData.importantActionMap data).foldl
       (fun acc p => acc ++ MessageData.importantDispatch p.1 p.2) []
  ++ (MessageData.readActionMap data).foldl
       (fun acc p => acc ++ MessageData.readDispatch p.1 p.2) []

/-- MessageData.applyAllActions as the list of mailbox service calls it
issues, in issue order. -/
def MessageData.applyAllActions (session_data : SessionData) (data : List MessageData) :
    List Call :=
  MessageData.mutationCalls data ++ MessageData.bookkeepingCalls session_data data

/-- The category reassignment calls of the thread-granularity engine, one per
record with a non-empty category set, in dataset order. -/
def ThreadData.categoryCallsOf (data : List ThreadData) : List Call :=
  (data.filter (fun td => 0 < td.thread_action.inbox_category_names.length)).map
    (fun td => Call.modifyThread td.raw td.thread_action.inbox_category_names
      (Action.INBOX_CATEGORIES.filter
        (fun c => !(td.thread_action.inbox_category_names.contains c))))

/-- The label_action_map of the thread-granularity engine, built standalone. -/
def ThreadData.labelAddMapOf (data : List ThreadData) : List (String × List Nat) :=
  labelMapFold ThreadData.thread_action ThreadData.raw Action.label_names [] data

/-- The label_remove_action_map of the thread-granularity engine. -/
def ThreadData.labelRemoveMapOf (data : List ThreadData) : List (String × List Nat) :=
  labelMapFold ThreadData.thread_action ThreadData.raw Action.label_names_to_remove [] data

/-- The bulk label add calls of the thread-granularity engine, one per key of
the label_action_map. -/
def ThreadData.labelAddCallsOf (data : List ThreadData) : List Call :=
  (ThreadData.labelAddMapOf data).map (fun p => Call.addLabelThreads p.1 p.2)

/-- The bulk label remove calls of the thread-granularity engine. -/
def ThreadData.labelRemoveCallsOf (data : List ThreadData) : List Call :=
  (ThreadData.labelRemoveMapOf data).map (fun p => Call.removeLabelThreads p.1 p.2)

/-- The move calls of the thread-granularity engine: exactly the three bulk
thread moves, one per non-default thread-level enum value. -/
def ThreadData.movingCallsOf (data : List ThreadData) : List Call :=
  [Call.moveThreadsToInbox (ThreadData.movingGroup data InboxActionType.INBOX),
   Call.moveThreadsToArchive (ThreadData.movingGroup data InboxActionType.ARCHIVE),
   Call.moveThreadsToTrash (ThreadData.movingGroup data InboxActionType.TRASH)]

/-- The importance calls of the thread-granularity engine. -/
def ThreadData.importantCallsOf (data : List ThreadData) : List Call :=
  [Call.markThreadsImportant (ThreadData.importantGroup data BooleanActionType.ENABLE),
   Call.markThreadsUnimportant (ThreadData.importantGroup data BooleanActionType.DISABLE)]

/-- The read calls of the thread-granularity engine: only the two thread-level
variants issue calls. -/
def ThreadData.readCallsOf (data : List ThreadData) : List Call :=
  [Call.markThreadsRead (ThreadData.readGroup data ReadActionType.THREAD_READ),
   Call.markThreadsUnread (ThreadData.readGroup data ReadActionType.THREAD_UNREAD)]

/-- The category reassignment calls of the message-granularity engine. -/
def MessageData.categoryCallsOf (data : List MessageData) : List Call :=
  (data.filter (fun md => 0 < md.message_action.inbox_category_names.length)).map
    (fun md => Call.modifyMessage md.raw.id md.message_action.inbox_category_names
      (Action.INBOX_CATEGORIES.filter
        (fun c => !(md.message_action.inbox_category_names.contains c))))

/-- The label_action_map of the message-granularity engine. -/
def MessageData.labelAddMapOf (data : List MessageData) : List (String × List RawMessage) :=
  labelMapFold MessageData.message_action MessageData.raw Action.label_names [] data

/-- The label_remove_action_map of the message-granularity engine. -/
def MessageData.labelRemoveMapOf (data : List MessageData) :
    List (String × List RawMessage) :=
  labelMapFold MessageData.message_action MessageData.raw Action.label_names_to_remove [] data

/-- The bulk label add calls of the message-granularity engine, addressed to
the parent threads of the grouped messages. -/
def MessageData.labelAddCallsOf (data : List MessageData) : List Call :=
  (MessageData.labelAddMapOf data).map
    (fun p => Call.addLabelThreads p.1 (p.2.map (fun m => m.thread)))

/-- The bulk label remove calls of the message-granularity engine. -/
def MessageData.labelRemoveCallsOf (data : List MessageData) : List Call :=
  (MessageData.labelRemoveMapOf data).map
    (fun p => Call.removeLabelThreads p.1 (p.2.map (fun m => m.thread)))

/-- The move calls of the message-granularity engine: three bulk thread moves,
then one Gmail.Users.Messages.modify call per message of the MSG_INBOX group,
then one per message of the MSG_ARCHIVE group, then one bulk
GmailApp.moveMessagesToTrash call for the MSG_TRASH group. -/
def MessageData.movingCallsOf (data : List MessageData) : List Call :=
  [Call.moveThreadsToInbox
     ((MessageData.movingGroup data InboxActionType.INBOX).map (fun m => m.thread)),
   Call.moveThreadsToArchive
     ((MessageData.movingGroup data InboxActionType.ARCHIVE).map (fun m => m.thread)),
   Call.moveThreadsToTrash
     ((MessageData.movingGroup data InboxActionType.TRASH).map (fun m => m.thread))]
  ++ (MessageData.movingGroup data InboxActionType.MSG_INBOX).map
       (fun m => Call.modifyMessage m.id ["INBOX"] [])
  ++ (MessageData.movingGroup data InboxActionType.MSG_ARCHIVE).map
       (fun m => Call.modifyMessage m.id [] ["INBOX"])
  ++ [Call.moveMessagesToTrash
        ((MessageData.movingGroup data InboxActionType.MSG_TRASH).map (fun m => m.id))]

/-- The importance calls of the message-granularity engine. -/
def MessageData.importantCallsOf (data : List MessageData) : List Call :=
  [Call.markThreadsImportant
     ((MessageData.importantGroup data BooleanActionType.ENABLE).map (fun m => m.thread)),
   Call.markThreadsUnimportant
     ((MessageData.importantGroup data BooleanActionType.DISABLE).map (fun m => m.thread))]

/-- The read calls of the message-granularity engine: bulk thread marks for
the thread-level variants and bulk message marks for the MSG variants. -/
def MessageData.readCallsOf (data : List MessageData) : List Call :=
  [Call.markThreadsRead
     ((MessageData.readGroup data ReadActionType.THREAD_READ).map (fun m => m.thread)),
   Call.markThreadsUnread
     ((MessageData.readGroup data ReadActionType.THREAD_UNREAD).map (fun m => m.thread)),
   Call.markMessagesRead
     ((MessageData.readGroup data ReadActionType.MSG_READ).map (fun m => m.id)),
   Call.markMessagesUnread
     ((MessageData.readGroup data ReadActionType.MSG_UNREAD).map (fun m => m.id))]

/-- Sequential execution with abort-on-failure: the engine issues calls in
order and a failing mailbox service call raises, so the calls actually issued
are the longest prefix of successful calls together with the first failing
call, and nothing after it. -/
def runUntilFailure (fails : Call → Bool) : List Call → List Call
  | [] => []
  | c :: cs => if fails c then [c] else c :: runUntilFailure fails cs

/-- Mailbox label state: the set of (label name, thread id) pairs currently
attached, as a list with membership semantics. -/
def applyCall (s : List (String × Nat)) : Call → List (String × Nat)
  | Call.addLabelThreads l ths => s ++ ths.map (fun t => (l, t))
  | Call.removeLabelThreads l ths =>
      s.filter (fun p => !(decide (p.1 = l) && decide (p.2 ∈ ths)))
  | _ => s

/-- Apply a list of calls to a mailbox label state, in order. -/
def applyCalls (s : List (String × Nat)) (cs : List Call) : List (String × Nat) :=
  cs.foldl applyCall s

/-- Decides whether thread t currently carries label l. -/
def hasLabel (s : List (String × Nat)) (l : String) (t : Nat) : Bool :=
  decide ((l, t) ∈ s)

/-- A call adds the pair (label l, thread t) exactly when it is a bulk label
add of l whose thread list contains t. -/
def addsPair (c : Call) (l : String) (t : Nat) : Prop :=
  match c with
  | Call.addLabelThreads l₂ ths => l₂ = l ∧ t ∈ ths
  | _ => False

/-- Bool classifier: is this call a bulk label add. -/
def Call.isAddLabel : Call → Bool
  | Call.addLabelThreads _ _ => true
  | _ => false

/-- Bool classifier: is this call a thread category reassignment
(Gmail.Users.Threads.modify). -/
def Call.isModifyThread : Call → Bool
  | Call.modifyThread _ _ _ => true
  | _ => false

/-- The body length cap of the MessageData constructor. -/
def MAX_BODY_PROCESSING_LENGTH : Nat := 65535

/-- The body computation of the MessageData constructor: the plain body is
kept as is unless longer than MAX_BODY_PROCESSING_LENGTH characters, in which
case it is cut to its first MAX_BODY_PROCESSING_LENGTH characters
(body.substring(0, MAX_BODY_PROCESSING_LENGTH)). -/
def MessageData.storedBody (plainBody : String) : String :=
  if MAX_BODY_PROCESSING_LENGTH < plainBody.length then
    String.mk (plainBody.toList.take MAX_BODY_PROCESSING_LENGTH)
  else plainBody

/-- The message selection of the ThreadData constructor: keep the messages
dated strictly after session_data.oldest_to_process, and when none qualifies
fall back to the last message of the thread.  The source indexes
messages[messages.length - 1] and is only ever run on threads with at least
one message; the empty-thread branch below returns [] in place of that
out-of-bounds access. -/
def ThreadData.selectNewMessages (session_data : SessionData)
    (messages : List RawMessage) : List RawMessage :=
  let newMessages := messages.filter (fun m => session_data.oldest_to_process < m.date)
  if newMessages.length = 0 then
    match messages.getLast? with
    | some m => [m]
    | none => []
  else newMessages

/-- Sample session with no processed label configured. -/
def sampleSession : SessionData := ⟨⟨"", "todo"⟩, 0⟩

/-- Sample session with a processed label configured. -/
def sampleSessionP : SessionData := ⟨⟨"done", "todo"⟩, 0⟩

/-- Sample thread record requesting one label addition and a category. -/
def sampleThreadCat : ThreadData :=
  ⟨5, ⟨["A"], [], ["SOCIAL"], InboxActionType.DEFAULT, BooleanActionType.DEFAULT,
    ReadActionType.DEFAULT⟩⟩

/-- Sample message record requesting the record-level trash move. -/
def sampleMsgTrash : MessageData :=
  ⟨⟨7, 3, 0⟩, ⟨[], [], [], InboxActionType.MSG_TRASH, BooleanActionType.DEFAULT,
    ReadActionType.DEFAULT⟩⟩

/-- Sample thread record requesting the record-level inbox move. -/
def sampleThreadMsgInbox : ThreadData :=
  ⟨4, ⟨[], [], [], InboxActionType.MSG_INBOX, BooleanActionType.DEFAULT,
    ReadActionType.DEFAULT⟩⟩

/-- Sample thread record with label X both added and removed, under a session
whose processed label is also X. -/
def sampleThreadBothX : ThreadData :=
  ⟨0, ⟨["X"], ["X"], [], InboxActionType.DEFAULT, BooleanActionType.DEFAULT,
    ReadActionType.DEFAULT⟩⟩

/-- Sample session whose processed label is X. -/
def sampleSessionX : SessionData := ⟨⟨"X", "todo"⟩, 0⟩

/-- Sample thread record with label L both added and removed. -/
def sampleThreadBoth : ThreadData :=
  ⟨2, ⟨["L"], ["L"], [], InboxActionType.DEFAULT, BooleanActionType.DEFAULT,
    ReadActionType.DEFAULT⟩⟩

/-- Sample message record requesting the record-level inbox move. -/
def sampleMsgInbox : MessageData :=
  ⟨⟨9, 2, 0⟩, ⟨[], [], [], InboxActionType.MSG_INBOX, BooleanActionType.DEFAULT,
    ReadActionType.DEFAULT⟩⟩

theorem runUntilFailure_append_ok (fails : Call → Bool) (xs ys : List Call)
    (h : ∀ c ∈ xs, fails c = false) :
    runUntilFailure fails (xs ++ ys) = xs ++ runUntilFailure fails ys := by
  induction xs with
  | nil => rfl
  | cons c cs ih =>
      have hc : fails c = false := h c (List.mem_cons_self c cs)
      simp only [List.cons_append, runUntilFailure, hc, Bool.false_eq_true, if_false,
        List.append_eq]
      rw [ih (fun d hd => h d (List.mem_cons_of_mem c hd))]

theorem runUntilFailure_append_fail (fails : Call → Bool) (xs ys : List Call)
    (h : ∃ c ∈ xs, fails c = true) :
    runUntilFailure fails (xs ++ ys) = runUntilFailure fails xs := by
  induction xs with
  | nil => simp at h
  | cons c cs ih =>
      by_cases hc : fails c = true
      · simp only [List.cons_append, runUntilFailure, hc, if_true]
      · have hf : fails c = false := Bool.eq_false_iff.mpr hc
        obtain ⟨d, hd, hdf⟩ := h
        rcases List.mem_cons.mp hd with rfl | hd2
        · exact absurd hdf hc
        · simp only [List.cons_append, runUntilFailure, hf, Bool.false_eq_true, if_false,
            List.append_eq]
          rw [ih ⟨d, hd2, hdf⟩]

theorem mem_updateLabelMap {α : Type} (m : List (String × List α)) (k L : String) (v x : α) :
    (∃ p ∈ updateLabelMap m k v, p.1 = L ∧ x ∈ p.2) ↔
      (∃ p ∈ m, p.1 = L ∧ x ∈ p.2) ∨ (L = k ∧ x = v) := by
  induction m with
  | nil => simp [updateLabelMap, eq_comm]
  | cons q rest ih =>
      simp only [updateLabelMap]
      by_cases hq : q.1 = k
      · rw [if_pos hq]
        constructor
        · rintro ⟨p, hp, h1, h2⟩
          rcases List.mem_cons.mp hp with rfl | hmem
          · rcases List.mem_append.mp h2 with h2 | h2
            · exact Or.inl ⟨q, List.mem_cons_self q rest, h1, h2⟩
            · exact Or.inr ⟨(hq.symm.trans h1).symm, List.mem_singleton.mp h2⟩
          · exact Or.inl ⟨p, List.mem_cons_of_mem q hmem, h1, h2⟩
        · rintro (⟨p, hp, h1, h2⟩ | ⟨h1, h2⟩)
          · rcases List.mem_cons.mp hp with rfl | hmem
            · exact ⟨(p.1, p.2 ++ [v]), List.mem_cons_self _ _, h1,
                List.mem_append.mpr (Or.inl h2)⟩
            · exact ⟨p, List.mem_cons_of_mem _ hmem, h1, h2⟩
          · exact ⟨(q.1, q.2 ++ [v]), List.mem_cons_self _ _, hq.trans h1.symm,
              List.mem_append.mpr (Or.inr (List.mem_singleton.mpr h2))⟩
      · rw [if_neg hq]
        constructor
        · rintro ⟨p, hp, h1, h2⟩
          rcases List.mem_cons.mp hp with rfl | hmem
          · exact Or.inl ⟨p, List.mem_cons_self p rest, h1, h2⟩
          · rcases (ih).mp ⟨p, hmem, h1, h2⟩ with h | h
            · obtain ⟨p2, hp2, g1, g2⟩ := h
              exact Or.inl ⟨p2, List.mem_cons_of_mem q hp2, g1, g2⟩
            · exact Or.inr h
        · rintro (⟨p, hp, h1, h2⟩ | ⟨h1, h2⟩)
          · rcases List.mem_cons.mp hp with rfl | hmem
            · exact ⟨p, List.mem_cons_self _ _, h1, h2⟩
            · obtain ⟨p2, hp2, g1, g2⟩ := (ih).mpr (Or.inl ⟨p, hmem, h1, h2⟩)
              exact ⟨p2, List.mem_cons_of_mem _ hp2, g1, g2⟩
          · obtain ⟨p2, hp2, g1, g2⟩ := (ih).mpr (Or.inr ⟨h1, h2⟩)
            exact ⟨p2, List.mem_cons_of_mem _ hp2, g1, g2⟩

theorem mem_foldlUpdate {α : Type} (labels : List String) (m : List (String × List α))
    (v : α) (L : String) (x : α) :
    (∃ p ∈ labels.foldl (fun acc l => updateLabelMap acc l v) m, p.1 = L ∧ x ∈ p.2) ↔
      (∃ p ∈ m, p.1 = L ∧ x ∈ p.2) ∨ (L ∈ labels ∧ x = v) := by
  induction labels generalizing m with
  | nil => simp
  | cons l ls ih =>
      simp only [List.foldl_cons]
      rw [ih, mem_updateLabelMap]
      simp only [List.mem_cons]
      constructor
      · rintro ((h | ⟨h1, h2⟩) | ⟨h1, h2⟩)
        · exact Or.inl h
        · exact Or.inr ⟨Or.inl h1, h2⟩
        · exact Or.inr ⟨Or.inr h1, h2⟩
      · rintro (h | ⟨h1 | h1, h2⟩)
        · exact Or.inl (Or.inl h)
        · exact Or.inl (Or.inr ⟨h1, h2⟩)
        · exact Or.inr ⟨h1, h2⟩

theorem mem_labelMapFold {ε α : Type} (act : ε → Action) (val : ε → α)
    (proj : Action → List String) (m : List (String × List α)) (data : List ε)
    (L : String) (x : α) :
    (∃ p ∈ labelMapFold act val proj m data, p.1 = L ∧ x ∈ p.2) ↔
      (∃ p ∈ m, p.1 = L ∧ x ∈ p.2) ∨ ∃ e ∈ data, x = val e ∧ L ∈ proj (act e) := by
  induction data generalizing m with
  | nil => simp [labelMapFold]
  | cons e es ih =>
      simp only [labelMapFold]
      rw [ih, mem_foldlUpdate]
      simp only [List.mem_cons]
      constructor
      · rintro ((h | ⟨h1, h2⟩) | ⟨e2, he2, h1, h2⟩)
        · exact Or.inl h
        · exact Or.inr ⟨e, Or.inl rfl, h2, h1⟩
        · exact Or.inr ⟨e2, Or.inr he2, h1, h2⟩
      · rintro (h | ⟨e2, he2 | he2, h1, h2⟩)
        · exact Or.inl (Or.inl h)
        · subst he2
          exact Or.inl (Or.inr ⟨h2, h1⟩)
        · exact Or.inr ⟨e2, he2, h1, h2⟩

theorem keys_updateLabelMap {α : Type} (m : List (String × List α)) (k : String) (v : α) :
    (updateLabelMap m k v).map Prod.fst =
      if k ∈ m.map Prod.fst then m.map Prod.fst else m.map Prod.fst ++ [k] := by
  induction m with
  | nil => simp [updateLabelMap]
  | cons q rest ih =>
      simp only [updateLabelMap]
      by_cases hq : q.1 = k
      · rw [if_pos hq, if_pos (by simp [List.mem_cons, hq.symm])]
        simp
      · rw [if_neg hq]
        have hk2 : ¬ k = q.1 := fun h => hq h.symm
        by_cases hk : k ∈ rest.map Prod.fst
        · rw [if_pos (by simp [List.mem_cons, hk])]
          simp [ih, hk]
        · rw [if_neg (by simp [List.mem_cons, hk, hk2])]
          simp [ih, hk]

theorem nodupKeys_updateLabelMap {α : Type} (m : List (String × List α)) (k : String)
    (v : α) (h : (m.map Prod.fst).Nodup) :
    ((updateLabelMap m k v).map Prod.fst).Nodup := by
  rw [keys_updateLabelMap]
  by_cases hk : k ∈ m.map Prod.fst
  · rwa [if_pos hk]
  · rw [if_neg hk]
    exact List.nodup_append.mpr ⟨h, List.nodup_singleton k,
      fun a ha hb => hk ((List.mem_singleton.mp hb) ▸ ha)⟩

theorem nodupKeys_foldlUpdate {α : Type} (labels : List String)
    (m : List (String × List α)) (v : α) (h : (m.map Prod.fst).Nodup) :
    ((labels.foldl (fun acc l => updateLabelMap acc l v) m).map Prod.fst).Nodup := by
  induction labels generalizing m with
  | nil => exact h
  | cons l ls ih => exact ih (updateLabelMap m l v) (nodupKeys_updateLabelMap m l v h)

theorem nodupKeys_labelMapFold {ε α : Type} (act : ε → Action) (val : ε → α)
    (proj : Action → List String) (m : List (String × List α)) (data : List ε)
    (h : (m.map Prod.fst).Nodup) :
    ((labelMapFold act val proj m data).map Prod.fst).Nodup := by
  induction data generalizing m with
  | nil => exact h
  | cons e es ih =>
      exact ih _ (nodupKeys_foldlUpdate (proj (act e)) m (val e) h)

theorem keyMem_keys_updateLabelMap {α : Type} {m : List (String × List α)} {k : String}
    {v : α} {a : String} (ha : a ∈ (updateLabelMap m k v).map Prod.fst) :
    a ∈ m.map Prod.fst ∨ a = k := by
  rw [keys_updateLabelMap] at ha
  by_cases hk : k ∈ m.map Prod.fst
  · rw [if_pos hk] at ha
    exact Or.inl ha
  · rw [if_neg hk] at ha
    rcases List.mem_append.mp ha with h | h
    · exact Or.inl h
    · exact Or.inr (List.mem_singleton.mp h)

theorem keyMem_keys_foldlUpdate {α : Type} {labels : List String}
    {m : List (String × List α)} {v : α} {a : String}
    (ha : a ∈ ((labels.foldl (fun acc l => updateLabelMap acc l v) m).map Prod.fst)) :
    a ∈ m.map Prod.fst ∨ a ∈ labels := by
  induction labels generalizing m with
  | nil => exact Or.inl ha
  | cons l ls ih =>
      rcases ih ha with h | h
      · rcases keyMem_keys_updateLabelMap h with h2 | h2
        · exact Or.inl h2
        · exact Or.inr (by rw [h2]; exact List.mem_cons_self l ls)
      · exact Or.inr (List.mem_cons_of_mem l h)

theorem keyMem_labelMapFold {ε α : Type} {act : ε → Action} {val : ε → α}
    {proj : Action → List String} {m : List (String × List α)} {data : List ε}
    {a : String} (ha : a ∈ (labelMapFold act val proj m data).map Prod.fst) :
    a ∈ m.map Prod.fst ∨ ∃ e ∈ data, a ∈ proj (act e) := by
  induction data generalizing m with
  | nil => exact Or.inl ha
  | cons e es ih =>
      rcases ih ha with h | h
      · rcases keyMem_keys_foldlUpdate h with h2 | h2
        · exact Or.inl h2
        · exact Or.inr ⟨e, List.mem_cons_self e es, h2⟩
      · obtain ⟨e2, he2, h2⟩ := h
        exact Or.inr ⟨e2, List.mem_cons_of_mem e he2, h2⟩

theorem ThreadData.aggregate_eq_thread (data : List ThreadData)
    (a b : List (String × List Nat)) (c : List Call) :
    ThreadData.aggregate (a, b, c) data =
      (labelMapFold ThreadData.thread_action ThreadData.raw Action.label_names a data,
       labelMapFold ThreadData.thread_action ThreadData.raw Action.label_names_to_remove
         b data,
       c ++ ThreadData.categoryCallsOf data) := by
  induction data generalizing a b c with
  | nil => simp [ThreadData.aggregate, labelMapFold, ThreadData.categoryCallsOf]
  | cons td rest ih =>
      simp only [ThreadData.aggregate, ThreadData.aggStep, labelMapFold]
      rw [ih]
      have hcat : ThreadData.categoryCallsOf (td :: rest) =
          (if 0 < td.thread_action.inbox_category_names.length then
            [Call.modifyThread td.raw td.thread_action.inbox_category_names
              (Action.INBOX_CATEGORIES.filter
                (fun c => !(td.thread_action.inbox_category_names.contains c)))]
          else []) ++ ThreadData.categoryCallsOf rest := by
        simp only [ThreadData.categoryCallsOf, List.filter_cons]
        by_cases h : 0 < td.thread_action.inbox_category_names.length
        · simp [h]
        · simp [h]
      rw [hcat]
      by_cases h : 0 < td.thread_action.inbox_category_names.length
      · simp [h, List.append_assoc]
      · simp [h]

theorem MessageData.aggregate_eq_msg (data : List MessageData)
    (a b : List (String × List RawMessage)) (c : List Call) :
    MessageData.aggregate (a, b, c) data =
      (labelMapFold MessageData.message_action MessageData.raw Action.label_names a data,
       labelMapFold MessageData.message_action MessageData.raw
         Action.label_names_to_remove b data,
       c ++ MessageData.categoryCallsOf data) := by
  induction data generalizing a b c with
  | nil => simp [MessageData.aggregate, labelMapFold, MessageData.categoryCallsOf]
  | cons md rest ih =>
      simp only [MessageData.aggregate, MessageData.aggStep, labelMapFold]
      rw [ih]
      have hcat : MessageData.categoryCallsOf (md :: rest) =
          (if 0 < md.message_action.inbox_category_names.length then
            [Call.modifyMessage md.raw.id md.message_action.inbox_category_names
              (Action.INBOX_CATEGORIES.filter
                (fun c => !(md.message_action.inbox_category_names.contains c)))]
          else []) ++ MessageData.categoryCallsOf rest := by
        simp only [MessageData.categoryCallsOf, List.filter_cons]
        by_cases h : 0 < md.message_action.inbox_category_names.length
        · simp [h]
        · simp [h]
      rw [hcat]
      by_cases h : 0 < md.message_action.inbox_category_names.length
      · simp [h, List.append_assoc]
      · simp [h]

theorem ThreadData.movingCalls_eq_thread (data : List ThreadData) :
    (ThreadData.movingActionMap data).foldl
      (fun acc p => acc ++ ThreadData.moveDispatch p.1 p.2) [] =
    ThreadData.movingCallsOf data := rfl

theorem ThreadData.importantCalls_eq_thread (data : List ThreadData) :
    (ThreadData.importantActionMap data).foldl
      (fun acc p => acc ++ ThreadData.importantDispatch p.1 p.2) [] =
    ThreadData.importantCallsOf data := rfl

theorem ThreadData.readCalls_eq_thread (data : List ThreadData) :
    (ThreadData.readActionMap data).foldl
      (fun acc p => acc ++ ThreadData.readDispatch p.1 p.2) [] =
    ThreadData.readCallsOf data := rfl

theorem MessageData.movingCalls_eq_msg (data : List MessageData) :
    (MessageData.movingActionMap data).foldl
      (fun acc p => acc ++ MessageData.moveDispatch p.1 p.2) [] =
    MessageData.movingCallsOf data := by
  simp [MessageData.movingActionMap, MessageData.moveDispatch, MessageData.movingCallsOf]

theorem MessageData.importantCalls_eq_msg (data : List MessageData) :
    (MessageData.importantActionMap data).foldl
      (fun acc p => acc ++ MessageData.importantDispatch p.1 p.2) [] =
    MessageData.importantCallsOf data := rfl

theorem MessageData.readCalls_eq_msg (data : List MessageData) :
    (MessageData.readActionMap data).foldl
      (fun acc p => acc ++ MessageData.readDispatch p.1 p.2) [] =
    MessageData.readCallsOf data := rfl

theorem ThreadData.mutationCalls_eq_thread (data : List ThreadData) :
    ThreadData.mutationCalls data =
      ThreadData.categoryCallsOf data ++ ThreadData.labelAddCallsOf data
      ++ ThreadData.labelRemoveCallsOf data ++ ThreadData.movingCallsOf data
      ++ ThreadData.importantCallsOf data ++ ThreadData.readCallsOf data := by
  unfold ThreadData.mutationCalls
  rw [ThreadData.aggregate_eq_thread]
  simp only [ThreadData.movingCalls_eq_thread, ThreadData.importantCalls_eq_thread,
    ThreadData.readCalls_eq_thread, ThreadData.labelAddCallsOf, ThreadData.labelRemoveCallsOf,
    ThreadData.labelAddMapOf, ThreadData.labelRemoveMapOf, List.nil_append,
    List.append_assoc]

theorem MessageData.mutationCalls_eq_msg (data : List MessageData) :
    MessageData.mutationCalls data =
      MessageData.categoryCallsOf data ++ MessageData.labelAddCallsOf data
      ++ MessageData.labelRemoveCallsOf data ++ MessageData.movingCallsOf data
      ++ MessageData.importantCallsOf data ++ MessageData.readCallsOf data := by
  unfold MessageData.mutationCalls
  rw [MessageData.aggregate_eq_msg]
  simp only [MessageData.movingCalls_eq_msg, MessageData.importantCalls_eq_msg,
    MessageData.readCalls_eq_msg, MessageData.labelAddCallsOf, MessageData.labelRemoveCallsOf,
    MessageData.labelAddMapOf, MessageData.labelRemoveMapOf, List.nil_append,
    List.append_assoc]

theorem ThreadData.applyAllActions_eq_thread (session_data : SessionData)
    (data : List ThreadData) :
    ThreadData.applyAllActions session_data data =
      ThreadData.categoryCallsOf data ++ ThreadData.labelAddCallsOf data
      ++ ThreadData.labelRemoveCallsOf data ++ ThreadData.movingCallsOf data
      ++ ThreadData.importantCallsOf data ++ ThreadData.readCallsOf data
      ++ ThreadData.bookkeepingCalls session_data data := by
  unfold ThreadData.applyAllActions
  rw [ThreadData.mutationCalls_eq_thread]

theorem MessageData.applyAllActions_eq_msg (session_data : SessionData)
    (data : List MessageData) :
    MessageData.applyAllActions session_data data =
      MessageData.categoryCallsOf data ++ MessageData.labelAddCallsOf data
      ++ MessageData.labelRemoveCallsOf data ++ MessageData.movingCallsOf data
      ++ MessageData.importantCallsOf data ++ MessageData.readCallsOf data
      ++ MessageData.bookkeepingCalls session_data data := by
  unfold MessageData.applyAllActions
  rw [MessageData.mutationCalls_eq_msg]

theorem applyCalls_append (s : List (String × Nat)) (xs ys : List Call) :
    applyCalls s (xs ++ ys) = applyCalls (applyCalls s xs) ys := by
  simp [applyCalls, List.foldl_append]

theorem applyCalls_cons (s : List (String × Nat)) (c : Call) (cs : List Call) :
    applyCalls s (c :: cs) = applyCalls (applyCall s c) cs := rfl

theorem hasLabel_applyCall_remove (s : List (String × Nat)) (l : String) (t : Nat)
    (ths : List Nat) (ht : t ∈ ths) :
    hasLabel (applyCall s (Call.removeLabelThreads l ths)) l t = false := by
  simp only [applyCall, hasLabel, decide_eq_false_iff_not]
  intro hmem
  have h2 := (List.mem_filter.mp hmem).2
  simp [ht] at h2

theorem hasLabel_applyCall_not_adds (s : List (String × Nat)) (c : Call) (l : String)
    (t : Nat) (hc : ¬ addsPair c l t) (hs : hasLabel s l t = false) :
    hasLabel (applyCall s c) l t = false := by
  cases c with
  | addLabelThreads l2 ths =>
      simp only [hasLabel, decide_eq_false_iff_not] at hs ⊢
      simp only [applyCall, List.mem_append]
      rintro (h | h)
      · exact hs h
      · obtain ⟨t2, ht2, heq⟩ := List.mem_map.mp h
        rw [Prod.mk.injEq] at heq
        exact hc ⟨heq.1, heq.2 ▸ ht2⟩
  | removeLabelThreads l2 ths =>
      simp only [hasLabel, decide_eq_false_iff_not] at hs ⊢
      simp only [applyCall]
      intro hmem
      exact hs (List.mem_filter.mp hmem).1
  | modifyThread a b d => simpa [applyCall] using hs
  | modifyMessage a b d => simpa [applyCall] using hs
  | moveThreadsToInbox a => simpa [applyCall] using hs
  | moveThreadsToArchive a => simpa [applyCall] using hs
  | moveThreadsToTrash a => simpa [applyCall] using hs
  | moveMessagesToTrash a => simpa [applyCall] using hs
  | markThreadsImportant a => simpa [applyCall] using hs
  | markThreadsUnimportant a => simpa [applyCall] using hs
  | markThreadsRead a => simpa [applyCall] using hs
  | markThreadsUnread a => simpa [applyCall] using hs
  | markMessagesRead a => simpa [applyCall] using hs
  | markMessagesUnread a => simpa [applyCall] using hs

theorem hasLabel_applyCalls_not_adds (s : List (String × Nat)) (cs : List Call)
    (l : String) (t : Nat) (hs : hasLabel s l t = false)
    (h : ∀ c ∈ cs, ¬ addsPair c l t) :
    hasLabel (applyCalls s cs) l t = false := by
  induction cs generalizing s with
  | nil => exact hs
  | cons c rest ih =>
      rw [applyCalls_cons]
      exact ih (applyCall s c)
        (hasLabel_applyCall_not_adds s c l t (h c (List.mem_cons_self c rest)) hs)
        (fun d hd => h d (List.mem_cons_of_mem c hd))

theorem not_adds_of_not_addLabel {c : Call} (hc : Call.isAddLabel c = false)
    (l : String) (t : Nat) : ¬ addsPair c l t := by
  cases c
  case addLabelThreads a b => simp [Call.isAddLabel] at hc
  all_goals exact fun h => h

theorem categoryCallsOf_shape_thread (data : List ThreadData) :
    ∀ c ∈ ThreadData.categoryCallsOf data, Call.isAddLabel c = false := by
  intro c hc
  obtain ⟨td, _, rfl⟩ := List.mem_map.mp hc
  rfl

theorem categoryCallsOf_shape_msg (data : List MessageData) :
    ∀ c ∈ MessageData.categoryCallsOf data, Call.isAddLabel c = false := by
  intro c hc
  obtain ⟨md, _, rfl⟩ := List.mem_map.mp hc
  rfl

theorem labelRemoveCallsOf_shape_thread (data : List ThreadData) :
    ∀ c ∈ ThreadData.labelRemoveCallsOf data, Call.isAddLabel c = false := by
  intro c hc
  obtain ⟨p, _, rfl⟩ := List.mem_map.mp hc
  rfl

theorem labelRemoveCallsOf_shape_msg (data : List MessageData) :
    ∀ c ∈ MessageData.labelRemoveCallsOf data, Call.isAddLabel c = false := by
  intro c hc
  obtain ⟨p, _, rfl⟩ := List.mem_map.mp hc
  rfl

theorem movingCallsOf_shape_thread (data : List ThreadData) :
    ∀ c ∈ ThreadData.movingCallsOf data, Call.isAddLabel c = false := by
  intro c hc
  simp only [ThreadData.movingCallsOf, List.mem_cons, List.not_mem_nil, or_false] at hc
  rcases hc with rfl | rfl | rfl <;> rfl

theorem importantCallsOf_shape_thread (data : List ThreadData) :
    ∀ c ∈ ThreadData.importantCallsOf data, Call.isAddLabel c = false := by
  intro c hc
  simp only [ThreadData.importantCallsOf, List.mem_cons, List.not_mem_nil, or_false] at hc
  rcases hc with rfl | rfl <;> rfl

theorem readCallsOf_shape_thread (data : List ThreadData) :
    ∀ c ∈ ThreadData.readCallsOf data, Call.isAddLabel c = false := by
  intro c hc
  simp only [ThreadData.readCallsOf, List.mem_cons, List.not_mem_nil, or_false] at hc
  rcases hc with rfl | rfl <;> rfl

theorem movingCallsOf_shape_msg (data : List MessageData) :
    ∀ c ∈ MessageData.movingCallsOf data, Call.isAddLabel c = false := by
  intro c hc
  unfold MessageData.movingCallsOf at hc
  rcases List.mem_append.mp hc with h | h
  · rcases List.mem_append.mp h with h | h
    · rcases List.mem_append.mp h with h | h
      · rcases List.mem_cons.mp h with rfl | h
        · rfl
        rcases List.mem_cons.mp h with rfl | h
        · rfl
        rcases List.mem_cons.mp h with rfl | h
        · rfl
        exact absurd h (List.not_mem_nil c)
      · obtain ⟨m, _, rfl⟩ := List.mem_map.mp h
        rfl
    · obtain ⟨m, _, rfl⟩ := List.mem_map.mp h
      rfl
  · rcases List.mem_cons.mp h with rfl | h
    · rfl
    exact absurd h (List.not_mem_nil c)

theorem importantCallsOf_shape_msg (data : List MessageData) :
    ∀ c ∈ MessageData.importantCallsOf data, Call.isAddLabel c = false := by
  intro c hc
  simp only [MessageData.importantCallsOf, List.mem_cons, List.not_mem_nil, or_false] at hc
  rcases hc with rfl | rfl <;> rfl

theorem readCallsOf_shape_msg (data : List MessageData) :
    ∀ c ∈ MessageData.readCallsOf data, Call.isAddLabel c = false := by
  intro c hc
  simp only [MessageData.readCallsOf, List.mem_cons, List.not_mem_nil, or_false] at hc
  rcases hc with rfl | rfl | rfl | rfl <;> rfl

theorem bookkeepingCalls_not_adds_thread (cfg : SessionData) (data : List ThreadData)
    (l : String) (t : Nat) (hl : l ≠ cfg.config.processed_label) :
    ∀ c ∈ ThreadData.bookkeepingCalls cfg data, ¬ addsPair c l t := by
  intro c hc
  unfold ThreadData.bookkeepingCalls at hc
  rcases List.mem_append.mp hc with h | h
  · by_cases hp : 0 < cfg.config.processed_label.length
    · rw [if_pos hp, List.mem_singleton] at h
      subst h
      intro hadd
      have h2 : cfg.config.processed_label = l ∧ t ∈ data.map (fun td => td.raw) := hadd
      exact hl h2.1.symm
    · rw [if_neg hp] at h
      exact absurd h (List.not_mem_nil c)
  · rw [List.mem_singleton] at h
    subst h
    exact fun h => h

theorem bookkeepingCalls_not_adds_msg (cfg : SessionData) (data : List MessageData)
    (l : String) (t : Nat) (hl : l ≠ cfg.config.processed_label) :
    ∀ c ∈ MessageData.bookkeepingCalls cfg data, ¬ addsPair c l t := by
  intro c hc
  unfold MessageData.bookkeepingCalls at hc
  rcases List.mem_append.mp hc with h | h
  · by_cases hp : 0 < cfg.config.processed_label.length
    · rw [if_pos hp, List.mem_singleton] at h
      subst h
      intro hadd
      have h2 : cfg.config.processed_label = l ∧ t ∈ data.map (fun md => md.raw.thread) :=
        hadd
      exact hl h2.1.symm
    · rw [if_neg hp] at h
      exact absurd h (List.not_mem_nil c)
  · rw [List.mem_singleton] at h
    subst h
    exact fun h => h

theorem removeCall_mem_thread (data : List ThreadData) (td : ThreadData) (X : String)
    (htd : td ∈ data) (hX : X ∈ td.thread_action.label_names_to_remove) :
    ∃ ths, Call.removeLabelThreads X ths ∈ ThreadData.labelRemoveCallsOf data
      ∧ td.raw ∈ ths := by
  have hmem : ∃ p ∈ ThreadData.labelRemoveMapOf data, p.1 = X ∧ td.raw ∈ p.2 := by
    rw [ThreadData.labelRemoveMapOf]
    exact (mem_labelMapFold _ _ _ _ _ _ _).mpr (Or.inr ⟨td, htd, rfl, hX⟩)
  obtain ⟨p, hp, h1, h2⟩ := hmem
  refine ⟨p.2, ?_, h2⟩
  rw [ThreadData.labelRemoveCallsOf]
  have hm : Call.removeLabelThreads p.1 p.2 ∈
      (ThreadData.labelRemoveMapOf data).map (fun q => Call.removeLabelThreads q.1 q.2) :=
    List.mem_map_of_mem _ hp
  rw [h1] at hm
  exact hm

theorem removeCall_mem_msg (data : List MessageData) (md : MessageData) (X : String)
    (hmd : md ∈ data) (hX : X ∈ md.message_action.label_names_to_remove) :
    ∃ ths, Call.removeLabelThreads X ths ∈ MessageData.labelRemoveCallsOf data
      ∧ md.raw.thread ∈ ths := by
  have hmem : ∃ p ∈ MessageData.labelRemoveMapOf data, p.1 = X ∧ md.raw ∈ p.2 := by
    rw [MessageData.labelRemoveMapOf]
    exact (mem_labelMapFold _ _ _ _ _ _ _).mpr (Or.inr ⟨md, hmd, rfl, hX⟩)
  obtain ⟨p, hp, h1, h2⟩ := hmem
  refine ⟨p.2.map (fun m => m.thread), ?_, List.mem_map_of_mem _ h2⟩
  rw [MessageData.labelRemoveCallsOf]
  have hm : Call.removeLabelThreads p.1 (p.2.map (fun m => m.thread)) ∈
      (MessageData.labelRemoveMapOf data).map
        (fun q => Call.removeLabelThreads q.1 (q.2.map (fun m => m.thread))) :=
    List.mem_map_of_mem _ hp
  rw [h1] at hm
  exact hm

theorem hasLabel_after_thread (cfg : SessionData) (data : List ThreadData)
    (td : ThreadData) (X : String) (s : List (String × Nat)) (htd : td ∈ data)
    (hXr : X ∈ td.thread_action.label_names_to_remove)
    (hXp : X ≠ cfg.config.processed_label) :
    hasLabel (applyCalls s (ThreadData.applyAllActions cfg data)) X td.raw = false := by
  obtain ⟨ths, hrc, htr⟩ := removeCall_mem_thread data td X htd hXr
  obtain ⟨pre, post, hsplit⟩ := List.append_of_mem hrc
  have htrace : ThreadData.applyAllActions cfg data =
      (ThreadData.categoryCallsOf data ++ ThreadData.labelAddCallsOf data ++ pre)
      ++ (Call.removeLabelThreads X ths
        :: (post ++ ThreadData.movingCallsOf data ++ ThreadData.importantCallsOf data
            ++ ThreadData.readCallsOf data ++ ThreadData.bookkeepingCalls cfg data)) := by
    rw [ThreadData.applyAllActions_eq_thread, hsplit]
    simp [List.append_assoc]
  rw [htrace, applyCalls_append, applyCalls_cons]
  refine hasLabel_applyCalls_not_adds _ _ X td.raw
    (hasLabel_applyCall_remove _ X td.raw ths htr) ?_
  intro c hc
  rcases List.mem_append.mp hc with hc1 | hbook
  · rcases List.mem_append.mp hc1 with hc2 | hrd
    · rcases List.mem_append.mp hc2 with hc3 | himp
      · rcases List.mem_append.mp hc3 with hpost | hmov
        · have hmem : c ∈ ThreadData.labelRemoveCallsOf data := by
            rw [hsplit]
            exact List.mem_append.mpr (Or.inr (List.mem_cons_of_mem _ hpost))
          exact not_adds_of_not_addLabel
            (labelRemoveCallsOf_shape_thread data c hmem) X td.raw
        · exact not_adds_of_not_addLabel
            (movingCallsOf_shape_thread data c hmov) X td.raw
      · exact not_adds_of_not_addLabel
          (importantCallsOf_shape_thread data c himp) X td.raw
    · exact not_adds_of_not_addLabel (readCallsOf_shape_thread data c hrd) X td.raw
  · exact bookkeepingCalls_not_adds_thread cfg data X td.raw hXp c hbook

theorem hasLabel_after_msg (cfg : SessionData) (data : List MessageData)
    (md : MessageData) (X : String) (s : List (String × Nat)) (hmd : md ∈ data)
    (hXr : X ∈ md.message_action.label_names_to_remove)
    (hXp : X ≠ cfg.config.processed_label) :
    hasLabel (applyCalls s (MessageData.applyAllActions cfg data)) X md.raw.thread
      = false := by
  obtain ⟨ths, hrc, htr⟩ := removeCall_mem_msg data md X hmd hXr
  obtain ⟨pre, post, hsplit⟩ := List.append_of_mem hrc
  have htrace : MessageData.applyAllActions cfg data =
      (MessageData.categoryCallsOf data ++ MessageData.labelAddCallsOf data ++ pre)
      ++ (Call.removeLabelThreads X ths
        :: (post ++ MessageData.movingCallsOf data ++ MessageData.importantCallsOf data
            ++ MessageData.readCallsOf data ++ MessageData.bookkeepingCalls cfg data)) := by
    rw [MessageData.applyAllActions_eq_msg, hsplit]
    simp [List.append_assoc]
  rw [htrace, applyCalls_append, applyCalls_cons]
  refine hasLabel_applyCalls_not_adds _ _ X md.raw.thread
    (hasLabel_applyCall_remove _ X md.raw.thread ths htr) ?_
  intro c hc
  rcases List.mem_append.mp hc with hc1 | hbook
  · rcases List.mem_append.mp hc1 with hc2 | hrd
    · rcases List.mem_append.mp hc2 with hc3 | himp
      · rcases List.mem_append.mp hc3 with hpost | hmov
        · have hmem : c ∈ MessageData.labelRemoveCallsOf data := by
            rw [hsplit]
            exact List.mem_append.mpr (Or.inr (List.mem_cons_of_mem _ hpost))
          exact not_adds_of_not_addLabel
            (labelRemoveCallsOf_shape_msg data c hmem) X md.raw.thread
        · exact not_adds_of_not_addLabel
            (movingCallsOf_shape_msg data c hmov) X md.raw.thread
      · exact not_adds_of_not_addLabel
          (importantCallsOf_shape_msg data c himp) X md.raw.thread
    · exact not_adds_of_not_addLabel (readCallsOf_shape_msg data c hrd) X md.raw.thread
  · exact bookkeepingCalls_not_adds_msg cfg data X md.raw.thread hXp c hbook

/-- Claim C1 is false as stated: on a concrete one-record dataset whose record
requests a label addition and a category, the engine issues the per-record
category reassignment call BEFORE the bulk label add call, so it is not the
case that every category call comes after every label add call. -/
theorem C1_counterexample :
    ¬ (∀ (i j : Fin (ThreadData.applyAllActions sampleSession [sampleThreadCat]).length),
        Call.isModifyThread
          ((ThreadData.applyAllActions sampleSession [sampleThreadCat]).get i) = true →
        Call.isAddLabel
          ((ThreadData.applyAllActions sampleSession [sampleThreadCat]).get j) = true →
        (j : Nat) < (i : Nat)) := by
  decide

/-- Claim C1 (amended): for every dataset and session, at both granularities,
the engine issues its mailbox service calls in this fixed order: first the
per-record category reassignment calls (issued during the aggregation pass),
then every bulk label add call, then every bulk label remove call, then the
move calls, then the importance calls, then the read calls, and the
Bookkeeping Step last. -/
theorem C1_dispatch_order (session_data : SessionData) (dataT : List ThreadData)
    (dataM : List MessageData) :
    ThreadData.applyAllActions session_data dataT =
      ThreadData.categoryCallsOf dataT ++ ThreadData.labelAddCallsOf dataT
      ++ ThreadData.labelRemoveCallsOf dataT ++ ThreadData.movingCallsOf dataT
      ++ ThreadData.importantCallsOf dataT ++ ThreadData.readCallsOf dataT
      ++ ThreadData.bookkeepingCalls session_data dataT
    ∧ MessageData.applyAllActions session_data dataM =
      MessageData.categoryCallsOf dataM ++ MessageData.labelAddCallsOf dataM
      ++ MessageData.labelRemoveCallsOf dataM ++ MessageData.movingCallsOf dataM
      ++ MessageData.importantCallsOf dataM ++ MessageData.readCallsOf dataM
      ++ MessageData.bookkeepingCalls session_data dataM :=
  ⟨ThreadData.applyAllActions_eq_thread session_data dataT,
   MessageData.applyAllActions_eq_msg session_data dataM⟩

/-- Claim C3 is false as stated: invoked on a dataset of zero records, the
engine still issues mailbox service calls (the fixed bulk enum-dimension
calls with empty record lists and the bookkeeping calls). -/
theorem C3_counterexample :
    ThreadData.applyAllActions sampleSessionP [] ≠ [] := by
  decide

/-- Claim C3 (amended): invoked with zero records, neither granularity issues
any label add, label remove or category call, but each still issues its fixed
bulk move, importance and read calls with empty record lists, and the
Bookkeeping Step calls over the empty dataset (the processed label addition
only when configured non-empty). -/
theorem C3_empty_dataset (session_data : SessionData) :
    ThreadData.applyAllActions session_data [] =
      [Call.moveThreadsToInbox [], Call.moveThreadsToArchive [],
       Call.moveThreadsToTrash [], Call.markThreadsImportant [],
       Call.markThreadsUnimportant [], Call.markThreadsRead [],
       Call.markThreadsUnread []]
      ++ ((if 0 < session_data.config.processed_label.length then
            [Call.addLabelThreads session_data.config.processed_label []] else [])
          ++ [Call.removeLabelThreads session_data.config.unprocessed_label []])
    ∧ MessageData.applyAllActions session_data [] =
      [Call.moveThreadsToInbox [], Call.moveThreadsToArchive [],
       Call.moveThreadsToTrash [], Call.moveMessagesToTrash [],
       Call.markThreadsImportant [], Call.markThreadsUnimportant [],
       Call.markThreadsRead [], Call.markThreadsUnread [],
       Call.markMessagesRead [], Call.markMessagesUnread []]
      ++ ((if 0 < session_data.config.processed_label.length then
            [Call.addLabelThreads session_data.config.processed_label []] else [])
          ++ [Call.removeLabelThreads session_data.config.unprocessed_label []]) :=
  ⟨rfl, rfl⟩

theorem mem_trace_of_mem_moving_thread (cfg : SessionData) {data : List ThreadData}
    {c : Call} (h : c ∈ ThreadData.movingCallsOf data) :
    c ∈ ThreadData.applyAllActions cfg data := by
  rw [ThreadData.applyAllActions_eq_thread]
  simp only [List.mem_append]
  tauto

theorem mem_trace_of_mem_read_thread (cfg : SessionData) {data : List ThreadData}
    {c : Call} (h : c ∈ ThreadData.readCallsOf data) :
    c ∈ ThreadData.applyAllActions cfg data := by
  rw [ThreadData.applyAllActions_eq_thread]
  simp only [List.mem_append]
  tauto

theorem mem_trace_of_mem_moving_msg (cfg : SessionData) {data : List MessageData}
    {c : Call} (h : c ∈ MessageData.movingCallsOf data) :
    c ∈ MessageData.applyAllActions cfg data := by
  rw [MessageData.applyAllActions_eq_msg]
  simp only [List.mem_append]
  tauto

theorem mem_trace_of_mem_read_msg (cfg : SessionData) {data : List MessageData}
    {c : Call} (h : c ∈ MessageData.readCallsOf data) :
    c ∈ MessageData.applyAllActions cfg data := by
  rw [MessageData.applyAllActions_eq_msg]
  simp only [List.mem_append]
  tauto

/-- Claim C2 is false as stated: at message granularity a MSG_TRASH group is
dispatched through one BULK GmailApp.moveMessagesToTrash call (not one
single-record move per record: the trace holds the bulk call and no
Gmail.Users.Messages.modify call at all), and at thread granularity a record
grouped under MSG_INBOX triggers no move call whatsoever. -/
theorem C2_counterexample :
    MessageData.applyAllActions sampleSession [sampleMsgTrash] =
      [Call.moveThreadsToInbox [], Call.moveThreadsToArchive [],
       Call.moveThreadsToTrash [], Call.moveMessagesToTrash [7],
       Call.markThreadsImportant [], Call.markThreadsUnimportant [],
       Call.markThreadsRead [], Call.markThreadsUnread [],
       Call.markMessagesRead [], Call.markMessagesUnread [],
       Call.removeLabelThreads "todo" [3]]
    ∧ ThreadData.applyAllActions sampleSession [sampleThreadMsgInbox] =
      [Call.moveThreadsToInbox [], Call.moveThreadsToArchive [],
       Call.moveThreadsToTrash [], Call.markThreadsImportant [],
       Call.markThreadsUnimportant [], Call.markThreadsRead [],
       Call.markThreadsUnread [], Call.removeLabelThreads "todo" [4]] := by
  exact ⟨by decide, by decide⟩

/-- Claim C2 (amended): at message granularity the thread-level variants
(INBOX, ARCHIVE, TRASH, THREAD_READ, THREAD_UNREAD) each trigger one bulk
thread call for their group, MSG_INBOX and MSG_ARCHIVE trigger one
single-record Gmail.Users.Messages.modify call per record of their group,
MSG_TRASH triggers one BULK GmailApp.moveMessagesToTrash call for its group,
and the record-level read variants trigger the bulk record-level mark calls;
at thread granularity the thread-level variants trigger one bulk call per
group while the RECORD_* move variants and the record-level read variants
trigger no call at all. -/
theorem C2_move_read_dispatch (session_data : SessionData) (dataT : List ThreadData)
    (dataM : List MessageData) :
    (Call.moveThreadsToInbox
        ((MessageData.movingGroup dataM InboxActionType.INBOX).map (fun m => m.thread))
      ∈ MessageData.applyAllActions session_data dataM)
    ∧ (Call.moveThreadsToArchive
        ((MessageData.movingGroup dataM InboxActionType.ARCHIVE).map (fun m => m.thread))
      ∈ MessageData.applyAllActions session_data dataM)
    ∧ (Call.moveThreadsToTrash
        ((MessageData.movingGroup dataM InboxActionType.TRASH).map (fun m => m.thread))
      ∈ MessageData.applyAllActions session_data dataM)
    ∧ (∀ m ∈ MessageData.movingGroup dataM InboxActionType.MSG_INBOX,
        Call.modifyMessage m.id ["INBOX"] []
          ∈ MessageData.applyAllActions session_data dataM)
    ∧ (∀ m ∈ MessageData.movingGroup dataM InboxActionType.MSG_ARCHIVE,
        Call.modifyMessage m.id [] ["INBOX"]
          ∈ MessageData.applyAllActions session_data dataM)
    ∧ (Call.moveMessagesToTrash
        ((MessageData.movingGroup dataM InboxActionType.MSG_TRASH).map (fun m => m.id))
      ∈ MessageData.applyAllActions session_data dataM)
    ∧ (Call.markThreadsRead
        ((MessageData.readGroup dataM ReadActionType.THREAD_READ).map (fun m => m.thread))
      ∈ MessageData.applyAllActions session_data dataM)
    ∧ (Call.markThreadsUnread
        ((MessageData.readGroup dataM ReadActionType.THREAD_UNREAD).map
          (fun m => m.thread))
      ∈ MessageData.applyAllActions session_data dataM)
    ∧ (Call.markMessagesRead
        ((MessageData.readGroup dataM ReadActionType.MSG_READ).map (fun m => m.id))
      ∈ MessageData.applyAllActions session_data dataM)
    ∧ (Call.markMessagesUnread
        ((MessageData.readGroup dataM ReadActionType.MSG_UNREAD).map (fun m => m.id))
      ∈ MessageData.applyAllActions session_data dataM)
    ∧ (Call.moveThreadsToInbox (ThreadData.movingGroup dataT InboxActionType.INBOX)
      ∈ ThreadData.applyAllActions session_data dataT)
    ∧ (Call.moveThreadsToArchive (ThreadData.movingGroup dataT InboxActionType.ARCHIVE)
      ∈ ThreadData.applyAllActions session_data dataT)
    ∧ (Call.moveThreadsToTrash (ThreadData.movingGroup dataT InboxActionType.TRASH)
      ∈ ThreadData.applyAllActions session_data dataT)
    ∧ (Call.markThreadsRead (ThreadData.readGroup dataT ReadActionType.THREAD_READ)
      ∈ ThreadData.applyAllActions session_data dataT)
    ∧ (Call.markThreadsUnread (ThreadData.readGroup dataT ReadActionType.THREAD_UNREAD)
      ∈ ThreadData.applyAllActions session_data dataT)
    ∧ (∀ g : List Nat, ThreadData.moveDispatch InboxActionType.MSG_INBOX g = []
        ∧ ThreadData.moveDispatch InboxActionType.MSG_ARCHIVE g = []
        ∧ ThreadData.moveDispatch InboxActionType.MSG_TRASH g = []
        ∧ ThreadData.readDispatch ReadActionType.MSG_READ g = []
        ∧ ThreadData.readDispatch ReadActionType.MSG_UNREAD g = [])
    ∧ ThreadData.movingCallsOf dataT =
        [Call.moveThreadsToInbox (ThreadData.movingGroup dataT InboxActionType.INBOX),
         Call.moveThreadsToArchive (ThreadData.movingGroup dataT InboxActionType.ARCHIVE),
         Call.moveThreadsToTrash (ThreadData.movingGroup dataT InboxActionType.TRASH)]
    ∧ ThreadData.readCallsOf dataT =
        [Call.markThreadsRead (ThreadData.readGroup dataT ReadActionType.THREAD_READ),
         Call.markThreadsUnread
           (ThreadData.readGroup dataT ReadActionType.THREAD_UNREAD)] := by
  refine ⟨?_, ?_, ?_, ?_, ?_, ?_, ?_, ?_, ?_, ?_, ?_, ?_, ?_, ?_, ?_,
    fun g => ⟨rfl, rfl, rfl, rfl, rfl⟩, rfl, rfl⟩
  · exact mem_trace_of_mem_moving_msg session_data
      (by simp [MessageData.movingCallsOf])
  · exact mem_trace_of_mem_moving_msg session_data
      (by simp [MessageData.movingCallsOf])
  · exact mem_trace_of_mem_moving_msg session_data
      (by simp [MessageData.movingCallsOf])
  · intro m hm
    exact mem_trace_of_mem_moving_msg session_data
      (by
        unfold MessageData.movingCallsOf
        refine List.mem_append.mpr (Or.inl (List.mem_append.mpr (Or.inl
          (List.mem_append.mpr (Or.inr ?_)))))
        exact List.mem_map_of_mem _ hm)
  · intro m hm
    exact mem_trace_of_mem_moving_msg session_data
      (by
        unfold MessageData.movingCallsOf
        refine List.mem_append.mpr (Or.inl (List.mem_append.mpr (Or.inr ?_)))
        exact List.mem_map_of_mem _ hm)
  · exact mem_trace_of_mem_moving_msg session_data
      (by
        unfold MessageData.movingCallsOf
        exact List.mem_append.mpr (Or.inr (List.mem_singleton.mpr rfl)))
  · exact mem_trace_of_mem_read_msg session_data (by simp [MessageData.readCallsOf])
  · exact mem_trace_of_mem_read_msg session_data (by simp [MessageData.readCallsOf])
  · exact mem_trace_of_mem_read_msg session_data (by simp [MessageData.readCallsOf])
  · exact mem_trace_of_mem_read_msg session_data (by simp [MessageData.readCallsOf])
  · exact mem_trace_of_mem_moving_thread session_data
      (by simp [ThreadData.movingCallsOf])
  · exact mem_trace_of_mem_moving_thread session_data
      (by simp [ThreadData.movingCallsOf])
  · exact mem_trace_of_mem_moving_thread session_data
      (by simp [ThreadData.movingCallsOf])
  · exact mem_trace_of_mem_read_thread session_data (by simp [ThreadData.readCallsOf])
  · exact mem_trace_of_mem_read_thread session_data (by simp [ThreadData.readCallsOf])

/-- Claim C2 witness: on a concrete one-record MSG_INBOX dataset the
single-record modify call for that record is in the issued trace. -/
theorem C2_witness :
    sampleMsgInbox.raw ∈ MessageData.movingGroup [sampleMsgInbox]
      InboxActionType.MSG_INBOX
    ∧ Call.modifyMessage sampleMsgInbox.raw.id ["INBOX"] []
      ∈ MessageData.applyAllActions sampleSession [sampleMsgInbox] :=
  ⟨by decide,
   (C2_move_read_dispatch sampleSession [] [sampleMsgInbox]).2.2.2.1
     sampleMsgInbox.raw (by decide)⟩

theorem bookkeepingCalls_shape_thread (cfg : SessionData) (data : List ThreadData) :
    ∀ c ∈ ThreadData.bookkeepingCalls cfg data, Call.isModifyThread c = false := by
  intro c hc
  unfold ThreadData.bookkeepingCalls at hc
  rcases List.mem_append.mp hc with h | h
  · by_cases hp : 0 < cfg.config.processed_label.length
    · rw [if_pos hp, List.mem_singleton] at h
      subst h
      rfl
    · rw [if_neg hp] at h
      exact absurd h (List.not_mem_nil c)
  · rw [List.mem_singleton] at h
    subst h
    rfl

/-- Claim C4: at thread granularity the category reassignment calls of a
dispatch are exactly one Gmail.Users.Threads.modify call per record with a
non-empty category set, adding the requested categories and removing the
complement of the fixed category enumeration, and records with an empty
category set trigger none; at message granularity the trace starts with
exactly the analogous Gmail.Users.Messages.modify calls, and every other
modify call of the trace is one of the single-record INBOX moves, not a
category reassignment. -/
theorem C4_category_exclusivity (session_data : SessionData) (dataT : List ThreadData)
    (dataM : List MessageData) :
    (ThreadData.applyAllActions session_data dataT).filter Call.isModifyThread =
      (dataT.filter (fun td => 0 < td.thread_action.inbox_category_names.length)).map
        (fun td => Call.modifyThread td.raw td.thread_action.inbox_category_names
          (Action.INBOX_CATEGORIES.filter
            (fun c => !(td.thread_action.inbox_category_names.contains c))))
    ∧ ∃ rest, MessageData.applyAllActions session_data dataM =
        (dataM.filter (fun md => 0 < md.message_action.inbox_category_names.length)).map
          (fun md => Call.modifyMessage md.raw.id md.message_action.inbox_category_names
            (Action.INBOX_CATEGORIES.filter
              (fun c => !(md.message_action.inbox_category_names.contains c)))) ++ rest
        ∧ ∀ c ∈ rest, ∀ mid adds removes, c = Call.modifyMessage mid adds removes →
            (adds = ["INBOX"] ∧ removes = ([] : List String))
            ∨ (adds = ([] : List String) ∧ removes = ["INBOX"]) := by
  constructor
  · rw [ThreadData.applyAllActions_eq_thread]
    simp only [List.filter_append]
    have h1 : (ThreadData.categoryCallsOf dataT).filter Call.isModifyThread =
        ThreadData.categoryCallsOf dataT :=
      List.filter_eq_self.mpr (fun c hc => by
        obtain ⟨td, _, rfl⟩ := List.mem_map.mp hc
        rfl)
    have h2 : (ThreadData.labelAddCallsOf dataT).filter Call.isModifyThread = [] :=
      List.filter_eq_nil_iff.mpr (fun c hc => by
        obtain ⟨p, _, rfl⟩ := List.mem_map.mp hc
        simp [Call.isModifyThread])
    have h3 : (ThreadData.labelRemoveCallsOf dataT).filter Call.isModifyThread = [] :=
      List.filter_eq_nil_iff.mpr (fun c hc => by
        obtain ⟨p, _, rfl⟩ := List.mem_map.mp hc
        simp [Call.isModifyThread])
    have h4 : (ThreadData.movingCallsOf dataT).filter Call.isModifyThread = [] :=
      List.filter_eq_nil_iff.mpr (fun c hc => by
        simp only [ThreadData.movingCallsOf, List.mem_cons, List.not_mem_nil,
          or_false] at hc
        rcases hc with rfl | rfl | rfl <;> simp [Call.isModifyThread])
    have h5 : (ThreadData.importantCallsOf dataT).filter Call.isModifyThread = [] :=
      List.filter_eq_nil_iff.mpr (fun c hc => by
        simp only [ThreadData.importantCallsOf, List.mem_cons, List.not_mem_nil,
          or_false] at hc
        rcases hc with rfl | rfl <;> simp [Call.isModifyThread])
    have h6 : (ThreadData.readCallsOf dataT).filter Call.isModifyThread = [] :=
      List.filter_eq_nil_iff.mpr (fun c hc => by
        simp only [ThreadData.readCallsOf, List.mem_cons, List.not_mem_nil,
          or_false] at hc
        rcases hc with rfl | rfl <;> simp [Call.isModifyThread])
    have h7 : (ThreadData.bookkeepingCalls session_data dataT).filter
        Call.isModifyThread = [] :=
      List.filter_eq_nil_iff.mpr (fun c hc => by
        simp [bookkeepingCalls_shape_thread session_data dataT c hc])
    rw [h1, h2, h3, h4, h5, h6, h7]
    simp [ThreadData.categoryCallsOf]
  · refine ⟨MessageData.labelAddCallsOf dataM ++ MessageData.labelRemoveCallsOf dataM
      ++ MessageData.movingCallsOf dataM ++ MessageData.importantCallsOf dataM
      ++ MessageData.readCallsOf dataM
      ++ MessageData.bookkeepingCalls session_data dataM, ?_, ?_⟩
    · rw [MessageData.applyAllActions_eq_msg]
      simp only [List.append_assoc]
      rfl
    · intro c hc mid adds removes heq
      subst heq
      rcases List.mem_append.mp hc with h | hbook
      · rcases List.mem_append.mp h with h | hrd
        · rcases List.mem_append.mp h with h | himp
          · rcases List.mem_append.mp h with h | hmov
            · rcases List.mem_append.mp h with hadd | hrm
              · obtain ⟨p, _, heq2⟩ := List.mem_map.mp hadd
                exact Call.noConfusion heq2
              · obtain ⟨p, _, heq2⟩ := List.mem_map.mp hrm
                exact Call.noConfusion heq2
            · unfold MessageData.movingCallsOf at hmov
              rcases List.mem_append.mp hmov with h | h
              · rcases List.mem_append.mp h with h | h
                · rcases List.mem_append.mp h with h | h
                  · rcases List.mem_cons.mp h with heq2 | h
                    · exact Call.noConfusion heq2
                    rcases List.mem_cons.mp h with heq2 | h
                    · exact Call.noConfusion heq2
                    rcases List.mem_cons.mp h with heq2 | h
                    · exact Call.noConfusion heq2
                    exact absurd h (List.not_mem_nil _)
                  · obtain ⟨m, _, heq2⟩ := List.mem_map.mp h
                    injection heq2 with e1 e2 e3
                    exact Or.inl ⟨e2.symm, e3.symm⟩
                · obtain ⟨m, _, heq2⟩ := List.mem_map.mp h
                  injection heq2 with e1 e2 e3
                  exact Or.inr ⟨e2.symm, e3.symm⟩
              · rcases List.mem_cons.mp h with heq2 | h
                · exact Call.noConfusion heq2
                exact absurd h (List.not_mem_nil _)
          · simp only [MessageData.importantCallsOf, List.mem_cons, List.not_mem_nil,
              or_false] at himp
            rcases himp with heq2 | heq2 <;> exact Call.noConfusion heq2
        · simp only [MessageData.readCallsOf, List.mem_cons, List.not_mem_nil,
            or_false] at hrd
          rcases hrd with heq2 | heq2 | heq2 | heq2 <;> exact Call.noConfusion heq2
      · unfold MessageData.bookkeepingCalls at hbook
        rcases List.mem_append.mp hbook with h | h
        · by_cases hp : 0 < session_data.config.processed_label.length
          · rw [if_pos hp, List.mem_singleton] at h
            exact Call.noConfusion h
          · rw [if_neg hp] at h
            exact absurd h (List.not_mem_nil _)
        · rw [List.mem_singleton] at h
          exact Call.noConfusion h

/-- Claim C4 witness: on a concrete one-record dataset the filtered category
calls of the trace evaluate to exactly the one expected modify call. -/
theorem C4_witness :
    (ThreadData.applyAllActions sampleSession [sampleThreadCat]).filter
        Call.isModifyThread =
      [Call.modifyThread 5 ["SOCIAL"] ["PRIMARY", "PROMOTIONS", "UPDATES", "FORUMS"]] := by
  have h := (C4_category_exclusivity sampleSession [sampleThreadCat] []).1
  rw [h]
  decide

/-- Claim C5 is false as stated: when the label that is both added and removed
coincides with the configured processed label, the Bookkeeping Step re-adds
it at the end of the batch, so the record DOES carry the label after
dispatch. -/
theorem C5_counterexample :
    hasLabel (applyCalls []
      (ThreadData.applyAllActions sampleSessionX [sampleThreadBothX])) "X" 0 = true := by
  decide

/-- Claim C5 (amended): for every record whose action lists the same label
name in both the add set and the remove set, the bulk add call precedes the
bulk remove call, so after applying the whole dispatch trace to any starting
label state the record does not carry that label — provided the name differs
from the configured processed label, which the Bookkeeping Step re-adds to
every record at the end.  This holds at both granularities (at message
granularity the label lives on the parent thread of the record). -/
theorem C5_add_then_remove (session_data : SessionData) (s : List (String × Nat))
    (X : String) :
    (∀ (dataT : List ThreadData) (td : ThreadData), td ∈ dataT →
      X ∈ td.thread_action.label_names →
      X ∈ td.thread_action.label_names_to_remove →
      X ≠ session_data.config.processed_label →
      hasLabel (applyCalls s (ThreadData.applyAllActions session_data dataT)) X td.raw
        = false)
    ∧ (∀ (dataM : List MessageData) (md : MessageData), md ∈ dataM →
      X ∈ md.message_action.label_names →
      X ∈ md.message_action.label_names_to_remove →
      X ≠ session_data.config.processed_label →
      hasLabel (applyCalls s (MessageData.applyAllActions session_data dataM)) X
        md.raw.thread = false) :=
  ⟨fun dataT td htd _ hXr hXp =>
      hasLabel_after_thread session_data dataT td X s htd hXr hXp,
   fun dataM md hmd _ hXr hXp =>
      hasLabel_after_msg session_data dataM md X s hmd hXr hXp⟩

/-- Claim C5 witness: a concrete record with label L in both sets, under a
session whose processed label is empty, ends up without L. -/
theorem C5_witness :
    sampleThreadBoth ∈ [sampleThreadBoth]
    ∧ "L" ∈ sampleThreadBoth.thread_action.label_names
    ∧ "L" ∈ sampleThreadBoth.thread_action.label_names_to_remove
    ∧ "L" ≠ sampleSession.config.processed_label
    ∧ hasLabel (applyCalls [] (ThreadData.applyAllActions sampleSession
        [sampleThreadBoth])) "L" sampleThreadBoth.raw = false :=
  ⟨by decide, by decide, by decide, by decide,
   (C5_add_then_remove sampleSession [] "L").1 [sampleThreadBoth] sampleThreadBoth
     (by decide) (by decide) (by decide) (by decide)⟩

/-- Claim C6: for every enum dimension at both granularities, the aggregation
map holds an entry for the default value (it is seeded first), yet the
dispatch switch issues no call for the default key, and the full call list of
each dimension consists only of calls for the non-default keys. -/
theorem C6_unset_noop (dataT : List ThreadData) (dataM : List MessageData) :
    ((ThreadData.movingActionMap dataT).lookup InboxActionType.DEFAULT =
        some (ThreadData.movingGroup dataT InboxActionType.DEFAULT)
      ∧ (ThreadData.importantActionMap dataT).lookup BooleanActionType.DEFAULT =
        some (ThreadData.importantGroup dataT BooleanActionType.DEFAULT)
      ∧ (ThreadData.readActionMap dataT).lookup ReadActionType.DEFAULT =
        some (ThreadData.readGroup dataT ReadActionType.DEFAULT))
    ∧ ((MessageData.movingActionMap dataM).lookup InboxActionType.DEFAULT =
        some (MessageData.movingGroup dataM InboxActionType.DEFAULT)
      ∧ (MessageData.importantActionMap dataM).lookup BooleanActionType.DEFAULT =
        some (MessageData.importantGroup dataM BooleanActionType.DEFAULT)
      ∧ (MessageData.readActionMap dataM).lookup ReadActionType.DEFAULT =
        some (MessageData.readGroup dataM ReadActionType.DEFAULT))
    ∧ (∀ g : List Nat, ThreadData.moveDispatch InboxActionType.DEFAULT g = []
        ∧ ThreadData.importantDispatch BooleanActionType.DEFAULT g = []
        ∧ ThreadData.readDispatch ReadActionType.DEFAULT g = [])
    ∧ (∀ g : List RawMessage, MessageData.moveDispatch InboxActionType.DEFAULT g = []
        ∧ MessageData.importantDispatch BooleanActionType.DEFAULT g = []
        ∧ MessageData.readDispatch ReadActionType.DEFAULT g = [])
    ∧ (ThreadData.movingActionMap dataT).foldl
        (fun acc p => acc ++ ThreadData.moveDispatch p.1 p.2) [] =
      [Call.moveThreadsToInbox (ThreadData.movingGroup dataT InboxActionType.INBOX),
       Call.moveThreadsToArchive (ThreadData.movingGroup dataT InboxActionType.ARCHIVE),
       Call.moveThreadsToTrash (ThreadData.movingGroup dataT InboxActionType.TRASH)]
    ∧ (ThreadData.importantActionMap dataT).foldl
        (fun acc p => acc ++ ThreadData.importantDispatch p.1 p.2) [] =
      [Call.markThreadsImportant
         (ThreadData.importantGroup dataT BooleanActionType.ENABLE),
       Call.markThreadsUnimportant
         (ThreadData.importantGroup dataT BooleanActionType.DISABLE)]
    ∧ (ThreadData.readActionMap dataT).foldl
        (fun acc p => acc ++ ThreadData.readDispatch p.1 p.2) [] =
      [Call.markThreadsRead (ThreadData.readGroup dataT ReadActionType.THREAD_READ),
       Call.markThreadsUnread (ThreadData.readGroup dataT ReadActionType.THREAD_UNREAD)]
    ∧ (MessageData.movingActionMap dataM).foldl
        (fun acc p => acc ++ MessageData.moveDispatch p.1 p.2) [] =
      MessageData.movingCallsOf dataM
    ∧ (MessageData.importantActionMap dataM).foldl
        (fun acc p => acc ++ MessageData.importantDispatch p.1 p.2) [] =
      MessageData.importantCallsOf dataM
    ∧ (MessageData.readActionMap dataM).foldl
        (fun acc p => acc ++ MessageData.readDispatch p.1 p.2) [] =
      MessageData.readCallsOf dataM :=
  ⟨⟨rfl, rfl, rfl⟩, ⟨rfl, rfl, rfl⟩,
   fun _ => ⟨rfl, rfl, rfl⟩, fun _ => ⟨rfl, rfl, rfl⟩,
   ThreadData.movingCalls_eq_thread dataT, ThreadData.importantCalls_eq_thread dataT,
   ThreadData.readCalls_eq_thread dataT, MessageData.movingCalls_eq_msg dataM,
   MessageData.importantCalls_eq_msg dataM, MessageData.readCalls_eq_msg dataM⟩

/-- Claim C7: at thread granularity the label-add mapping holds a record
handle under key L exactly when L is in that record's labels to add, its keys
are free of duplicates and the dispatcher issues exactly one bulk add call
per key carrying the full grouped list, and no remove call of the
label-remove step names a label that no record asked to remove. -/
theorem C7_label_aggregation (dataT : List ThreadData) :
    (∀ (L : String) (x : Nat),
        (∃ p ∈ ThreadData.labelAddMapOf dataT, p.1 = L ∧ x ∈ p.2) ↔
          ∃ td ∈ dataT, x = td.raw ∧ L ∈ td.thread_action.label_names)
    ∧ ((ThreadData.labelAddMapOf dataT).map Prod.fst).Nodup
    ∧ ThreadData.labelAddCallsOf dataT =
        (ThreadData.labelAddMapOf dataT).map (fun p => Call.addLabelThreads p.1 p.2)
    ∧ (∀ (L : String) (ths : List Nat),
        (∀ td ∈ dataT, L ∉ td.thread_action.label_names_to_remove) →
        Call.removeLabelThreads L ths ∉ ThreadData.labelRemoveCallsOf dataT) := by
  refine ⟨?_, ?_, rfl, ?_⟩
  · intro L x
    rw [ThreadData.labelAddMapOf, mem_labelMapFold]
    simp
  · exact nodupKeys_labelMapFold _ _ _ _ dataT (by simp)
  · intro L ths h hmem
    obtain ⟨p, hp, heq⟩ := List.mem_map.mp hmem
    injection heq with h1 h2
    rw [ThreadData.labelRemoveMapOf] at hp
    rcases keyMem_labelMapFold (List.mem_map_of_mem Prod.fst hp) with h3 | ⟨td, htd, h4⟩
    · simp at h3
    · exact h td htd (h1 ▸ h4)

/-- Claim C7 witness: on a concrete dataset with one record adding label A
and removing nothing, the mapping places the record under A and the remove
step never names label B. -/
theorem C7_witness :
    ((∃ p ∈ ThreadData.labelAddMapOf [sampleThreadCat], p.1 = "A" ∧ 5 ∈ p.2) ↔
      ∃ td ∈ [sampleThreadCat], 5 = td.raw ∧ "A" ∈ td.thread_action.label_names)
    ∧ (∀ td ∈ [sampleThreadCat], "B" ∉ td.thread_action.label_names_to_remove)
    ∧ Call.removeLabelThreads "B" [] ∉ ThreadData.labelRemoveCallsOf [sampleThreadCat] :=
  ⟨(C7_label_aggregation [sampleThreadCat]).1 "A" 5, by decide,
   (C7_label_aggregation [sampleThreadCat]).2.2.2 "B" [] (by decide)⟩

/-- Claim C8: under the sequential abort-on-failure execution model, if any
call of steps 1 to 6 fails then the executed calls are exactly those of
running steps 1 to 6 alone — the Bookkeeping Step is never reached; if all of
steps 1 to 6 succeed, the full step list is executed with the Bookkeeping
Step last, and the Bookkeeping Step consists of one bulk processed-label
addition over the whole dataset exactly when the configured processed label
is non-empty, followed unconditionally by one bulk unprocessed-label removal
over the whole dataset.  This holds at both granularities. -/
theorem C8_bookkeeping_last (session_data : SessionData) (dataT : List ThreadData)
    (dataM : List MessageData) (fails : Call → Bool) :
    ((∃ c ∈ ThreadData.mutationCalls dataT, fails c = true) →
      runUntilFailure fails (ThreadData.applyAllActions session_data dataT) =
        runUntilFailure fails (ThreadData.mutationCalls dataT))
    ∧ ((∀ c ∈ ThreadData.mutationCalls dataT, fails c = false) →
      runUntilFailure fails (ThreadData.applyAllActions session_data dataT) =
        ThreadData.mutationCalls dataT
          ++ runUntilFailure fails (ThreadData.bookkeepingCalls session_data dataT))
    ∧ ThreadData.bookkeepingCalls session_data dataT =
        (if 0 < session_data.config.processed_label.length then
          [Call.addLabelThreads session_data.config.processed_label
            (dataT.map (fun td => td.raw))]
        else [])
        ++ [Call.removeLabelThreads session_data.config.unprocessed_label
             (dataT.map (fun td => td.raw))]
    ∧ ((∃ c ∈ MessageData.mutationCalls dataM, fails c = true) →
      runUntilFailure fails (MessageData.applyAllActions session_data dataM) =
        runUntilFailure fails (MessageData.mutationCalls dataM))
    ∧ ((∀ c ∈ MessageData.mutationCalls dataM, fails c = false) →
      runUntilFailure fails (MessageData.applyAllActions session_data dataM) =
        MessageData.mutationCalls dataM
          ++ runUntilFailure fails (MessageData.bookkeepingCalls session_data dataM))
    ∧ MessageData.bookkeepingCalls session_data dataM =
        (if 0 < session_data.config.processed_label.length then
          [Call.addLabelThreads session_data.config.processed_label
            (dataM.map (fun md => md.raw.thread))]
        else [])
        ++ [Call.removeLabelThreads session_data.config.unprocessed_label
             (dataM.map (fun md => md.raw.thread))] := by
  refine ⟨?_, ?_, rfl, ?_, ?_, rfl⟩
  · intro h
    exact runUntilFailure_append_fail fails _ _ h
  · intro h
    exact runUntilFailure_append_ok fails _ _ h
  · intro h
    exact runUntilFailure_append_fail fails _ _ h
  · intro h
    exact runUntilFailure_append_ok fails _ _ h

/-- Claim C8 witness: with a failure model under which every call fails, the
run over a concrete batch stops inside steps 1 to 6 and equals the run of
steps 1 to 6 alone; with no failures the bookkeeping calls run last. -/
theorem C8_witness :
    (∃ c ∈ ThreadData.mutationCalls [sampleThreadCat], (fun _ => true) c = true)
    ∧ runUntilFailure (fun _ => true)
        (ThreadData.applyAllActions sampleSessionP [sampleThreadCat]) =
      runUntilFailure (fun _ => true) (ThreadData.mutationCalls [sampleThreadCat])
    ∧ (∀ c ∈ ThreadData.mutationCalls [sampleThreadCat], (fun _ => false) c = false)
    ∧ runUntilFailure (fun _ => false)
        (ThreadData.applyAllActions sampleSessionP [sampleThreadCat]) =
      ThreadData.mutationCalls [sampleThreadCat]
        ++ runUntilFailure (fun _ => false)
             (ThreadData.bookkeepingCalls sampleSessionP [sampleThreadCat]) :=
  ⟨by decide,
   (C8_bookkeeping_last sampleSessionP [sampleThreadCat] [] (fun _ => true)).1
     (by decide),
   by decide,
   (C8_bookkeeping_last sampleSessionP [sampleThreadCat] [] (fun _ => false)).2.1
     (by decide)⟩

/-- Claim C9: the stored plain-text body of a constructed MessageData is at
most 65535 characters long: a longer plain body is cut to its first 65535
characters, any other is stored unchanged. -/
theorem C9_body_truncation (body : String) :
    (MessageData.storedBody body).length ≤ MAX_BODY_PROCESSING_LENGTH
    ∧ (MAX_BODY_PROCESSING_LENGTH < body.length →
        MessageData.storedBody body =
          String.mk (body.toList.take MAX_BODY_PROCESSING_LENGTH))
    ∧ (body.length ≤ MAX_BODY_PROCESSING_LENGTH →
        MessageData.storedBody body = body) := by
  unfold MessageData.storedBody
  by_cases h : MAX_BODY_PROCESSING_LENGTH < body.length
  · rw [if_pos h]
    refine ⟨?_, fun _ => rfl, fun h2 => absurd h (not_lt.mpr h2)⟩
    have hlen : (String.mk (body.toList.take MAX_BODY_PROCESSING_LENGTH)).length
        = (body.toList.take MAX_BODY_PROCESSING_LENGTH).length := rfl
    rw [hlen, List.length_take]
    exact min_le_left _ _
  · rw [if_neg h]
    exact ⟨not_lt.mp h, fun h2 => absurd h2 h, fun _ => rfl⟩

/-- Claim C9 witness: a short body is stored unchanged and within the cap. -/
theorem C9_witness :
    ("abc" : String).length ≤ MAX_BODY_PROCESSING_LENGTH
    ∧ MessageData.storedBody "abc" = "abc" :=
  ⟨by decide, (C9_body_truncation "abc").2.2 (by decide)⟩

/-- Claim C10: for a non-empty thread, the selected message list of the
ThreadData constructor is non-empty; it is exactly the messages dated
strictly after the session cutoff when any exists, and exactly the last
message of the thread otherwise. -/
theorem C10_message_selection (session_data : SessionData)
    (messages : List RawMessage) (h : messages ≠ []) :
    ThreadData.selectNewMessages session_data messages ≠ []
    ∧ (messages.filter (fun m => session_data.oldest_to_process < m.date) ≠ [] →
        ThreadData.selectNewMessages session_data messages =
          messages.filter (fun m => session_data.oldest_to_process < m.date))
    ∧ (messages.filter (fun m => session_data.oldest_to_process < m.date) = [] →
        ThreadData.selectNewMessages session_data messages = [messages.getLast h]) := by
  simp only [ThreadData.selectNewMessages]
  rw [List.getLast?_eq_getLast messages h]
  by_cases hf : messages.filter (fun m => session_data.oldest_to_process < m.date) = []
  · rw [hf]
    simp only [List.length_nil, if_pos rfl]
    exact ⟨List.cons_ne_nil _ _, fun h2 => absurd rfl h2, fun _ => rfl⟩
  · have hl : ¬ (messages.filter
        (fun m => session_data.oldest_to_process < m.date)).length = 0 :=
      fun h2 => hf (List.length_eq_zero.mp h2)
    rw [if_neg hl]
    exact ⟨hf, fun _ => rfl, fun h2 => absurd h2 hf⟩

/-- Claim C10 witness: a one-message thread newer than the cutoff yields a
non-empty selection. -/
theorem C10_witness :
    ([(⟨1, 1, 5⟩ : RawMessage)] : List RawMessage) ≠ []
    ∧ ThreadData.selectNewMessages sampleSession [⟨1, 1, 5⟩] ≠ [] :=
  ⟨by decide, (C10_message_selection sampleSession [⟨1, 1, 5⟩] (by decide)).1⟩

end GmailAutomata
